import Mathlib

/-!
Verification development for the chronoshift display-model core:
a shallow embedding of `src/registry.ts`, `src/renderer.ts` and
`src/visual-renderer.ts`, together with theorems settling the spec claims.

Modelling conventions:
* JS numbers are modelled as rationals (`ℚ`); the instant (`Date`) is opaque
  and modelled as `Int`.
* DOM text content and class names are `String`s.  Numeric-valued SVG
  attributes (written in the source as `String(number)`) store the number
  itself; the two transcendental quantities the source writes are kept
  symbolic: `AVal.coord c l θ ax` stands for `c + l·cos(θ·π/180)`
  (or `sin` when `ax = true`), and `AVal.tau m` stands for `m·2π`.
  Both encodings record exactly the expression the source computes.
* Fallible lookups (`Map.get`, `querySelector`, `?? fallback`) are `Option`.
* `querySelector('.cls')` on a container is preorder depth-first search over
  the container's children for a node whose (space-separated) class attribute
  contains the token; mutating the found node is modelled by `updL`, which
  rewrites the first such node in place.  A DOM update of a queried node that
  is absent (a null dereference in JS, reachable only through containers never
  produced by this module) is modelled as a no-op; the one absent-node case the
  source itself guards (`if (secondHand)`) coincides with this modelling.
-/

/-- Opaque instant handed to providers (`Date` in the source). -/
abbrev Inst := Int

/-! ## Display model (`src/types.ts`) -/

/-- `UnifiedDisplay` from `src/types.ts`; `pre`/`suf` are the source's
`prefix`/`suffix` fields renamed. -/
structure UnifiedDisplay where
  value : String
  pre : Option String
  suf : Option String
  label : Option String
  sublabel : Option String

structure SplitDate where
  formatted : String
  era : Option String

structure SplitTime where
  formatted : String
  period : Option String
  unitLabels : Option (List String)

structure SplitDisplay where
  date : SplitDate
  time : SplitTime
  separator : Option String

/-- A `Segmented` segment's `value` field is `string | number` in the source. -/
inductive SegValue where
  | str (s : String)
  | num (q : ℚ)
  deriving DecidableEq

/-- `String(seg.value)` from `src/renderer.ts`. -/
def SegValue.asText : SegValue → String
  | .str s => s
  | .num q => toString q

structure Segment where
  value : SegValue
  label : String
  sublabel : Option String
  deriving DecidableEq

structure SegmentedDisplay where
  segments : List Segment
  separator : Option String
  deriving DecidableEq

/-- `TimeDisplay`, the closed tagged union of display shapes. -/
inductive TimeDisplay where
  | unified (d : UnifiedDisplay)
  | split (d : SplitDisplay)
  | segmented (d : SegmentedDisplay)

/-- The `type` tag string of a display value. -/
def TimeDisplay.typeName : TimeDisplay → String
  | .unified _ => "unified"
  | .split _ => "split"
  | .segmented _ => "segmented"

/-! ## Registry (`src/registry.ts`)

A registration candidate is an arbitrary JS value; only the four fields
`validateSystem` inspects are modelled (the remaining provider fields —
`category`, `tickInterval`, `learnMoreUrl`, `visual` — never influence
registration and ride along inside the `format` payload's closure in the
source).  A field is either absent, a string, or present with a non-string
value; `format` is either absent, a callable, or a non-callable value. -/

inductive FieldVal where
  | missing
  | str (s : String)
  | nonStr
  deriving DecidableEq

inductive FormatVal where
  | missing
  | callable (f : Inst → TimeDisplay)
  | nonCallable

/-- A registration candidate: either not an object at all, or an object with
the four validated fields. -/
inductive RawSystem where
  | nonObject
  | obj (id name description : FieldVal) (format : FormatVal)

def FieldVal.isStr : FieldVal → Bool
  | .str _ => true
  | _ => false

def FormatVal.isCallable : FormatVal → Bool
  | .callable _ => true
  | _ => false

/-- `validateSystem` from `src/registry.ts` lines 22–31. -/
def validateSystem : RawSystem → Bool
  | .nonObject => false
  | .obj i n d f => i.isStr && n.isStr && d.isStr && f.isCallable

/-- The string value of a candidate's `id` field, when it is a string. -/
def idStr : RawSystem → Option String
  | .obj (.str s) _ _ _ => some s
  | _ => none

/-- The module-init loop of `src/registry.ts` lines 9–20: the registry is an
insertion-ordered map (JS `Map`), modelled as an association list.  Invalid
candidates and duplicate ids are logged and skipped (`continue`). -/
def registerAll : List (String × RawSystem) → List RawSystem → List (String × RawSystem)
  | reg, [] => reg
  | reg, c :: rest =>
    if validateSystem c then
      match idStr c with
      | some i =>
        if reg.any (fun p => p.1 == i) then registerAll reg rest
        else registerAll (reg ++ [(i, c)]) rest
      | none => registerAll reg rest -- unreachable: a valid candidate has a string id
    else registerAll reg rest

def buildRegistry (l : List RawSystem) : List (String × RawSystem) :=
  registerAll [] l

/-- `getAllSystems` (`Array.from(registry.values())`). -/
def getAllSystems (reg : List (String × RawSystem)) : List RawSystem :=
  reg.map Prod.snd

/-- `getSystem` (`registry.get(id)`). -/
def getSystem (i : String) (reg : List (String × RawSystem)) : Option RawSystem :=
  (reg.find? (fun p => p.1 == i)).map Prod.snd

/-- `getDefaultSystem` (`registry.get('standard') ?? Array.from(registry.values())[0]`);
an out-of-range index is `undefined`, i.e. `none`. -/
def getDefaultSystem (reg : List (String × RawSystem)) : Option RawSystem :=
  match getSystem "standard" reg with
  | some s => some s
  | none => (getAllSystems reg).head?

/-! ## Renderer (`src/renderer.ts`)

Output nodes: an element carries the tag, the single class string assigned via
`className`/`setAttribute('class', …)`, and its child list; assigning
`textContent = s` installs one text child (none when `s` is empty). -/

inductive DNode where
  | text (s : String)
  | elem (tag : String) (cls : String) (children : List DNode)

/-- Children produced by a `textContent = s` assignment. -/
def textChildren (s : String) : List DNode :=
  if s = "" then [] else [DNode.text s]

/-- JS string truthiness of an optional field (`if (d.prefix)`): absent and
the empty string are falsy. -/
def truthy : Option String → Bool
  | none => false
  | some s => !(s == "")

def spanNode (cls txt : String) : DNode := .elem "span" cls (textChildren txt)

def divNode (cls txt : String) : DNode := .elem "div" cls (textChildren txt)

/-- `renderUnified` from `src/renderer.ts` lines 25–63, as the child list it
appends to the container. -/
def renderUnified (d : UnifiedDisplay) : List DNode :=
  [DNode.elem "div" "display__main"
    ((if truthy d.pre then [spanNode "display__prefix" (d.pre.getD "")] else [])
      ++ [spanNode "display__value" d.value]
      ++ (if truthy d.suf then [spanNode "display__suffix" (d.suf.getD "")] else []))]
  ++ (if truthy d.label then [divNode "display__label" (d.label.getD "")] else [])
  ++ (if truthy d.sublabel then [divNode "display__sublabel" (d.sublabel.getD "")] else [])

/-- `renderSplit` from `src/renderer.ts` lines 65–96. -/
def renderSplit (d : SplitDisplay) : List DNode :=
  [DNode.elem "div" "display__date"
    (textChildren d.date.formatted
      ++ (if truthy d.date.era then [spanNode "display__era" (" " ++ d.date.era.getD "")] else [])),
   spanNode "display__separator" (d.separator.getD " • "),
   DNode.elem "div" "display__time"
    (textChildren d.time.formatted
      ++ (if truthy d.time.period then [spanNode "display__period" (" " ++ d.time.period.getD "")] else []))]

/-- The separator span of a segmented display. -/
def sepSpan (txt : String) : DNode := spanNode "display__seg-separator" txt

/-- One segment's value+label element. -/
def segNode (s : Segment) : DNode :=
  DNode.elem "div" "display__segment"
    [spanNode "display__seg-value" s.value.asText, spanNode "display__seg-label" s.label]

/-- The `d.segments.forEach((seg, i) => …)` loop of `renderSegmented`
(`src/renderer.ts` lines 102–124): a separator is emitted before every
segment except the one at index 0. -/
def segLoop (sepTxt : String) : ℕ → List Segment → List DNode
  | _, [] => []
  | i, s :: rest =>
    (if 0 < i then [sepSpan sepTxt] else []) ++ [segNode s] ++ segLoop sepTxt (i + 1) rest

/-- `renderSegmented` from `src/renderer.ts` lines 98–127. -/
def renderSegmented (d : SegmentedDisplay) : List DNode :=
  [DNode.elem "div" "display__segments" (segLoop (d.separator.getD ":") 0 d.segments)]

/-- The render target: its `className` and child nodes. -/
structure Container where
  className : String
  children : List DNode

/-- `render` from `src/renderer.ts` lines 8–23: clear the target
(`innerHTML = ''`), set the variant class, then paint the variant. -/
def render (d : TimeDisplay) (c : Container) : Container :=
  let cleared : Container := { c with children := [] }
  let tagged : Container := { cleared with className := "display display--" ++ d.typeName }
  match d with
  | .unified u => { tagged with children := tagged.children ++ renderUnified u }
  | .split s => { tagged with children := tagged.children ++ renderSplit s }
  | .segmented s => { tagged with children := tagged.children ++ renderSegmented s }

/-- Number of element nodes with class string `cls` in a `DNode` forest. -/
def countClsL (cls : String) : List DNode → ℕ
  | [] => 0
  | .text _ :: rest => countClsL cls rest
  | .elem _ c kids :: rest =>
    (if c == cls then 1 else 0) + countClsL cls kids + countClsL cls rest

/-! ## Visual renderer (`src/visual-renderer.ts`)

SVG nodes carry a tag, an ordered attribute list (`setAttribute` replaces an
existing entry or appends a new one) and children. -/

/-- An SVG attribute value: a literal string, an exactly-computed number, a
coordinate `center + len·cos(deg·π/180)` (`sin` when `sinAxis`), or `m·2π`. -/
inductive AVal where
  | s (v : String)
  | n (v : ℚ)
  | coord (center len deg : ℚ) (sinAxis : Bool)
  | tau (m : ℚ)
  deriving DecidableEq

inductive SNode where
  | mk (tag : String) (attrs : List (String × AVal)) (children : List SNode)

def SNode.kids : SNode → List SNode
  | .mk _ _ cs => cs

def SNode.attrsOf : SNode → List (String × AVal)
  | .mk _ a _ => a

def getAttr (name : String) : List (String × AVal) → Option AVal
  | [] => none
  | (k, v) :: rest => if k == name then some v else getAttr name rest

/-- `setAttribute`: replace the attribute if present, else append it. -/
def setA (name : String) (v : AVal) : List (String × AVal) → List (String × AVal)
  | [] => [(name, v)]
  | (k, w) :: rest => if k == name then (k, v) :: rest else (k, w) :: setA name v rest

def SNode.setAttr : SNode → String → AVal → SNode
  | .mk t a cs, name, v => .mk t (setA name v a) cs

/-- Split a class string on spaces (structural-recursion replacement for
`String.splitOn`, which does not reduce in the kernel). -/
def splitAux : List Char → List Char → List String
  | [], acc => [String.mk acc.reverse]
  | c :: rest, acc =>
    if c = ' ' then String.mk acc.reverse :: splitAux rest []
    else splitAux rest (c :: acc)

def classTokens (s : String) : List String := splitAux s.data []

/-- Does the node's class attribute contain the token (CSS `.tok` selector)? -/
def classMatch (tok : String) : SNode → Bool
  | .mk _ a _ =>
    match getAttr "class" a with
    | some (.s c) => (classTokens c).contains tok
    | _ => false

mutual
/-- `querySelector('.tok')` relative to one node: the node itself, else the
first match among its descendants. -/
def qsel1 (tok : String) : SNode → Option SNode
  | .mk t a cs =>
    if classMatch tok (.mk t a cs) then some (.mk t a cs)
    else qselL tok cs

/-- `querySelector('.tok')` over a forest: first match in document order. -/
def qselL (tok : String) : List SNode → Option SNode
  | [] => none
  | n :: rest =>
    match qsel1 tok n with
    | some m => some m
    | none => qselL tok rest
end

mutual
/-- Apply `f` in place to the first `.tok` match inside one node's subtree. -/
def upd1 (tok : String) (f : SNode → SNode) : SNode → SNode
  | .mk t a cs =>
    if (qselL tok cs).isSome then .mk t a (updL tok f cs) else .mk t a cs

/-- Apply `f` in place to the first `.tok` match in a forest (the mutation the
source performs on the node returned by `querySelector`). -/
def updL (tok : String) (f : SNode → SNode) : List SNode → List SNode
  | [] => []
  | n :: rest =>
    if classMatch tok n then f n :: rest
    else if (qsel1 tok n).isSome then upd1 tok f n :: rest
    else n :: updL tok f rest
end

/-- Update the first `.tok` match among a node's children
(`svg.querySelector('.tok').setAttribute(…)`). -/
def updIn (tok : String) (f : SNode → SNode) : SNode → SNode
  | .mk t a cs => .mk t a (updL tok f cs)

def VISUAL_SIZE : ℚ := 120

def STROKE_WIDTH : ℚ := 4

/-- `ProgressBarVisual` and `ProgressRingVisual` share `{max, getValue}`. -/
structure ProgressBarVisual where
  max : ℚ
  getValue : Inst → ℚ

structure ProgressRingVisual where
  max : ℚ
  getValue : Inst → ℚ

structure Hands where
  hour : ℚ
  minute : ℚ
  second : Option ℚ

structure ClockVisual where
  divisions : ℕ
  getHands : Inst → Hands

inductive VisualDefinition where
  | bar (v : ProgressBarVisual)
  | ring (v : ProgressRingVisual)
  | clock (v : ClockVisual)

/-- Background track of the bar scaffold (`src/visual-renderer.ts` 45–52). -/
def barTrack : SNode := .mk "rect"
  [("class", .s "visual__track"), ("x", .s "0"), ("y", .s "4"),
   ("width", .n VISUAL_SIZE), ("height", .s "4"), ("rx", .s "2")] []

/-- Progress fill of the bar scaffold (lines 55–61); `width` is set later. -/
def barFill : SNode := .mk "rect"
  [("class", .s "visual__fill"), ("x", .s "0"), ("y", .s "4"),
   ("height", .s "4"), ("rx", .s "2")] []

def barSvg : SNode := .mk "svg"
  [("class", .s "visual__svg visual__svg--bar"), ("viewBox", .s "0 0 120 12"),
   ("aria-hidden", .s "true")] [barTrack, barFill]

/-- `renderProgressBar` (`src/visual-renderer.ts` lines 29–68). -/
def renderProgressBar (v : ProgressBarVisual) (date : Inst) (container : List SNode) :
    List SNode :=
  let value := v.getValue date
  let progress := min (value / v.max) 1
  let c :=
    match qselL "visual__svg" container with
    | some _ => container
    | none => container ++ [barSvg]
  updL "visual__svg"
    (updIn "visual__fill" (fun fill => fill.setAttr "width" (.n (progress * VISUAL_SIZE)))) c

def ringRadius : ℚ := (VISUAL_SIZE - STROKE_WIDTH) / 2

def ringCenter : ℚ := VISUAL_SIZE / 2

def ringTrack : SNode := .mk "circle"
  [("class", .s "visual__track"), ("cx", .n ringCenter), ("cy", .n ringCenter),
   ("r", .n ringRadius), ("fill", .s "none"), ("stroke-width", .n STROKE_WIDTH)] []

/-- Ring progress arc (lines 101–111); `stroke-dasharray` is the circumference
`2π·ringRadius`, i.e. `AVal.tau ringRadius`. -/
def ringArc : SNode := .mk "circle"
  [("class", .s "visual__fill"), ("cx", .n ringCenter), ("cy", .n ringCenter),
   ("r", .n ringRadius), ("fill", .s "none"), ("stroke-width", .n STROKE_WIDTH),
   ("stroke-linecap", .s "round"), ("stroke-dasharray", .tau ringRadius),
   ("transform", .s "rotate(-90 60 60)")] []

def ringSvg : SNode := .mk "svg"
  [("class", .s "visual__svg visual__svg--ring"), ("viewBox", .s "0 0 120 120"),
   ("aria-hidden", .s "true")] [ringTrack, ringArc]

/-- `renderProgressRing` (`src/visual-renderer.ts` lines 70–119). -/
def renderProgressRing (v : ProgressRingVisual) (date : Inst) (container : List SNode) :
    List SNode :=
  let value := v.getValue date
  let progress := min (value / v.max) 1
  let c :=
    match qselL "visual__svg" container with
    | some _ => container
    | none => container ++ [ringSvg]
  updL "visual__svg"
    (updIn "visual__fill"
      (fun arc => arc.setAttr "stroke-dashoffset" (.tau (ringRadius * (1 - progress))))) c

def clockCenter : ℚ := VISUAL_SIZE / 2

def faceRadius : ℚ := (VISUAL_SIZE - STROKE_WIDTH) / 2

def faceNode : SNode := .mk "circle"
  [("class", .s "visual__face"), ("cx", .n clockCenter), ("cy", .n clockCenter),
   ("r", .n faceRadius), ("fill", .s "none"), ("stroke-width", .n STROKE_WIDTH)] []

/-- One hour marker (`src/visual-renderer.ts` lines 148–162). -/
def markerNode (divisions i : ℕ) : SNode :=
  let angle : ℚ := ((i : ℚ) / (divisions : ℚ)) * 360 - 90
  .mk "line"
    [("class", .s "visual__marker"),
     ("x1", .coord clockCenter (faceRadius - 8) angle false),
     ("y1", .coord clockCenter (faceRadius - 8) angle true),
     ("x2", .coord clockCenter (faceRadius - 3) angle false),
     ("y2", .coord clockCenter (faceRadius - 3) angle true),
     ("stroke-width", .s "2"), ("stroke-linecap", .s "round")] []

def hourHand0 : SNode := .mk "line"
  [("class", .s "visual__hand visual__hand--hour"), ("x1", .n clockCenter),
   ("y1", .n clockCenter), ("stroke-width", .s "3"), ("stroke-linecap", .s "round")] []

def minuteHand0 : SNode := .mk "line"
  [("class", .s "visual__hand visual__hand--minute"), ("x1", .n clockCenter),
   ("y1", .n clockCenter), ("stroke-width", .s "2"), ("stroke-linecap", .s "round")] []

def secondHand0 : SNode := .mk "line"
  [("class", .s "visual__hand visual__hand--second"), ("x1", .n clockCenter),
   ("y1", .n clockCenter), ("stroke-width", .s "1"), ("stroke-linecap", .s "round")] []

def centerDot : SNode := .mk "circle"
  [("class", .s "visual__center"), ("cx", .n clockCenter), ("cy", .n clockCenter),
   ("r", .s "3")] []

/-- The clock scaffold (`src/visual-renderer.ts` lines 132–202): face, one
marker per division, hour and minute hands, a second hand only when the first
call's hands included a defined `second`, and the center dot. -/
def clockScaffold (divisions : ℕ) (withSecond : Bool) : SNode :=
  .mk "svg"
    [("class", .s "visual__svg visual__svg--clock"), ("viewBox", .s "0 0 120 120"),
     ("aria-hidden", .s "true")]
    ([faceNode] ++ (List.range divisions).map (markerNode divisions)
      ++ [hourHand0, minuteHand0]
      ++ (if withSecond then [secondHand0] else [])
      ++ [centerDot])

def hourLength : ℚ := faceRadius * (5 / 10)

def minuteLength : ℚ := faceRadius * (7 / 10)

def secondLength : ℚ := faceRadius * (8 / 10)

/-- Set a hand's endpoint for angle `deg` and length `len`
(`hand.setAttribute('x2'/'y2', String(center + len·cos/sin(rad)))`). -/
def setHandEnd (len deg : ℚ) (n : SNode) : SNode :=
  (n.setAttr "x2" (.coord clockCenter len deg false)).setAttr "y2"
    (.coord clockCenter len deg true)

/-- `renderClock` (`src/visual-renderer.ts` lines 121–233). -/
def renderClock (v : ClockVisual) (date : Inst) (container : List SNode) : List SNode :=
  let hands := v.getHands date
  let c :=
    match qselL "visual__svg" container with
    | some _ => container
    | none => container ++ [clockScaffold v.divisions hands.second.isSome]
  let hourAngle : ℚ := (hands.hour / (v.divisions : ℚ)) * 360 - 90
  let minuteAngle : ℚ := (hands.minute / 100) * 360 - 90
  let c := updL "visual__svg" (updIn "visual__hand--hour" (setHandEnd hourLength hourAngle)) c
  let c := updL "visual__svg"
    (updIn "visual__hand--minute" (setHandEnd minuteLength minuteAngle)) c
  match hands.second with
  | some sec =>
    let secondAngle : ℚ := (sec / 100) * 360 - 90
    updL "visual__svg"
      (updIn "visual__hand--second" (setHandEnd secondLength secondAngle)) c
  | none => c

/-- `renderVisual` (`src/visual-renderer.ts` lines 11–27). -/
def renderVisual : VisualDefinition → Inst → List SNode → List SNode
  | .bar v, date, c => renderProgressBar v date c
  | .ring v, date, c => renderProgressRing v date c
  | .clock v, date, c => renderClock v date c

/-! ## Observations on rendered visuals -/

/-- The `width` attribute of the `.visual__fill` node inside the first
`.visual__svg` node, when it is a number (the access path of
`renderProgressBar`'s update step). -/
def fillWidth (c : List SNode) : Option ℚ :=
  (qselL "visual__svg" c).bind fun svg =>
    (qselL "visual__fill" svg.kids).bind fun fill =>
      match getAttr "width" fill.attrsOf with
      | some (.n w) => some w
      | _ => none

/-- The angle (in degrees) encoded in the `x2` endpoint of the `.tok` hand
inside the first `.visual__svg` node. -/
def handAngle (tok : String) (c : List SNode) : Option ℚ :=
  (qselL "visual__svg" c).bind fun svg =>
    (qselL tok svg.kids).bind fun hand =>
      match getAttr "x2" hand.attrsOf with
      | some (.coord _ _ deg _) => some deg
      | _ => none

/-- `querySelector` inside the first `.visual__svg` node (the source's
`svg.querySelector(…)`). -/
def qselIn (tok : String) (c : List SNode) : Option SNode :=
  (qselL "visual__svg" c).bind fun svg => qselL tok svg.kids

mutual
/-- The static skeleton of a node: tag, class attribute, and the skeletons of
the children — everything except non-class attribute values. -/
def skel1 : SNode → SNode
  | .mk t a cs => .mk t (a.filter (fun p => p.1 == "class")) (skelL cs)

def skelL : List SNode → List SNode
  | [] => []
  | n :: rest => skel1 n :: skelL rest
end

/-- `f` preserves node skeletons. -/
def skelPres (f : SNode → SNode) : Prop := ∀ n : SNode, skel1 (f n) = skel1 n

/-! ## Concrete values used by witnesses and counterexamples -/

def dummyFormat : Inst → TimeDisplay :=
  fun _ => .unified ⟨"0", none, none, none, none⟩

/-- A malformed candidate: its `id` is the string "x" but `format` is not
callable. -/
def badX : RawSystem := .obj (.str "x") (.str "Bad") (.str "desc") .nonCallable

/-- A well-formed candidate with id "x". -/
def goodX : RawSystem := .obj (.str "x") (.str "Good") (.str "desc") (.callable dummyFormat)

/-- A second, distinct well-formed candidate with the same id "x". -/
def goodX2 : RawSystem := .obj (.str "x") (.str "Other") (.str "desc") (.callable dummyFormat)

def sysEpoch : RawSystem :=
  .obj (.str "epoch-seconds") (.str "Unix Epoch") (.str "desc") (.callable dummyFormat)

def sysStandard : RawSystem :=
  .obj (.str "standard") (.str "Standard Time") (.str "desc") (.callable dummyFormat)

def sysHolocene : RawSystem :=
  .obj (.str "holocene") (.str "Holocene") (.str "desc") (.callable dummyFormat)

/-- A segmented display with three segments and no explicit separator. -/
def demoSegmented : SegmentedDisplay :=
  { segments :=
      [{ value := .str "10", label := "hours", sublabel := none },
       { value := .str "45", label := "minutes", sublabel := none },
       { value := .str "30", label := "seconds", sublabel := none }],
    separator := none }

def emptyContainer : Container := { className := "", children := [] }

def demoBar : ProgressBarVisual := { max := 100, getValue := fun _ => 50 }

def demoNegBar : ProgressBarVisual := { max := 100, getValue := fun _ => -25 }

/-- A 12-division clock whose hands sit at 3 o'clock with no second hand. -/
def demoClock : ClockVisual :=
  { divisions := 12, getHands := fun _ => { hour := 3, minute := 0, second := none } }

/-- A 12-division clock with a defined second hand. -/
def demoClockSec : ClockVisual :=
  { divisions := 12, getHands := fun _ => { hour := 3, minute := 0, second := some 30 } }

/-- A clock whose hands report a second only from instant 1 on: the first
render (at instant 0) builds a scaffold without a second hand. -/
def demoClockLate : ClockVisual :=
  { divisions := 12,
    getHands := fun t =>
      { hour := 3, minute := 0, second := if t = 0 then none else some 30 } }

/-- Registry invariant: every entry is a validated candidate stored under its
own id, and keys are unique. -/
def regInv (reg : List (String × RawSystem)) : Prop :=
  (∀ p ∈ reg, validateSystem p.2 = true ∧ idStr p.2 = some p.1)
    ∧ (reg.map Prod.fst).Nodup

/-! ## Registry lemmas -/

theorem getSystem_eq_none_iff (i : String) (reg : List (String × RawSystem)) :
    getSystem i reg = none ↔ ∀ p ∈ reg, p.1 ≠ i := by
  simp [getSystem, List.find?_eq_none]

theorem getSystem_any (i : String) (reg : List (String × RawSystem)) :
    reg.any (fun p => p.1 == i) = false ↔ getSystem i reg = none := by
  rw [getSystem_eq_none_iff]
  simp

theorem regInv_registerAll (l : List RawSystem) :
    ∀ reg, regInv reg → regInv (registerAll reg l) := by
  induction l with
  | nil => intro reg h; exact h
  | cons c rest ih =>
    intro reg h
    by_cases hval : validateSystem c = true
    · cases hid : idStr c with
      | none => simpa only [registerAll, hval, hid, if_true] using ih reg h
      | some i =>
        by_cases hany : reg.any (fun p => p.1 == i) = true
        · simpa only [registerAll, hval, hid, hany, if_true] using ih reg h
        · have hstep : registerAll reg (c :: rest) = registerAll (reg ++ [(i, c)]) rest := by
            simp [registerAll, hval, hid, hany]
          rw [hstep]
          apply ih
          have hnotmem : i ∉ reg.map Prod.fst := by
            intro hmem
            rcases List.mem_map.1 hmem with ⟨p, hp, rfl⟩
            exact hany (List.any_eq_true.2 ⟨p, hp, by simp⟩)
          refine ⟨?_, ?_⟩
          · intro p hp
            rcases List.mem_append.1 hp with hp | hp
            · exact h.1 p hp
            · simp only [List.mem_singleton] at hp
              subst hp
              exact ⟨hval, hid⟩
          · simp only [List.map_append, List.map_cons, List.map_nil]
            rw [List.nodup_append]
            refine ⟨h.2, List.nodup_singleton _, ?_⟩
            intro a ha hb
            simp only [List.mem_singleton] at hb
            subst hb
            exact hnotmem ha
    · simpa only [registerAll, hval, if_false] using ih reg h

theorem find?_append_none {α : Type} (p : α → Bool) (l₁ l₂ : List α)
    (h : l₁.find? p = none) : (l₁ ++ l₂).find? p = l₂.find? p := by
  induction l₁ with
  | nil => rfl
  | cons a rest ih =>
    cases hp : p a with
    | true => simp [List.find?, hp] at h
    | false =>
      simp only [List.find?, hp] at h
      simpa only [List.cons_append, List.find?, hp] using ih h

theorem getSystem_append_single (i j : String) (c : RawSystem) :
    ∀ reg, getSystem i (reg ++ [(j, c)]) =
      match getSystem i reg with
      | some x => some x
      | none => if j == i then some c else none := by
  intro reg
  induction reg with
  | nil =>
    cases hji : (j == i) with
    | true => simp [getSystem, List.find?, hji]
    | false => simp [getSystem, List.find?, hji]
  | cons p rest ih =>
    cases hpi : (p.1 == i) with
    | true => simp [getSystem, List.find?, hpi]
    | false =>
      simp only [getSystem, List.cons_append, List.find?, hpi] at ih ⊢
      exact ih

theorem registerAll_getSystem (i : String) (l : List RawSystem) :
    ∀ reg, getSystem i (registerAll reg l) =
      match getSystem i reg with
      | some x => some x
      | none => l.find? (fun c => validateSystem c && decide (idStr c = some i)) := by
  induction l with
  | nil =>
    intro reg
    cases h : getSystem i reg <;> simp [registerAll, h]
  | cons c rest ih =>
    intro reg
    by_cases hval : validateSystem c = true
    · cases hid : idStr c with
      | none =>
        have hpred : (validateSystem c && decide (idStr c = some i)) = false := by
          simp [hid]
        have hstep : registerAll reg (c :: rest) = registerAll reg rest := by
          simp [registerAll, hval, hid]
        rw [hstep, ih reg]
        cases h : getSystem i reg <;> simp [List.find?, hpred]
      | some j =>
        by_cases hany : reg.any (fun p => p.1 == j) = true
        · have hstep : registerAll reg (c :: rest) = registerAll reg rest := by
            simp [registerAll, hval, hid, hany]
          rw [hstep, ih reg]
          cases h : getSystem i reg with
          | some x => rfl
          | none =>
            have hji : (j == i) = false := by
              rcases List.any_eq_true.1 hany with ⟨p, hp, hpj⟩
              by_contra hc
              simp only [Bool.not_eq_false, beq_iff_eq] at hc
              subst hc
              rw [getSystem_eq_none_iff] at h
              exact h p hp (by simpa using hpj)
            have hpred : (validateSystem c && decide (idStr c = some i)) = false := by
              simp only [hval, Bool.true_and, decide_eq_false_iff_not, hid]
              intro hc
              simp only [Option.some.injEq] at hc
              subst hc
              simp at hji
            simp [List.find?, hpred]
        · have hstep : registerAll reg (c :: rest) = registerAll (reg ++ [(j, c)]) rest := by
            simp [registerAll, hval, hid, hany]
          rw [hstep, ih, getSystem_append_single]
          cases h : getSystem i reg with
          | some x => rfl
          | none =>
            cases hji : (j == i) with
            | true =>
              have hidi : idStr c = some i := by
                rw [hid]
                simp only [beq_iff_eq] at hji
                rw [hji]
              simp [List.find?, hval, hidi, hji]
            | false =>
              have hpred : (validateSystem c && decide (idStr c = some i)) = false := by
                simp only [hval, Bool.true_and, decide_eq_false_iff_not, hid]
                intro hc
                simp only [Option.some.injEq] at hc
                subst hc
                simp at hji
              simp [List.find?, hpred, hji]
    · have hpred : (validateSystem c && decide (idStr c = some i)) = false := by
        simp [hval]
      have hstep : registerAll reg (c :: rest) = registerAll reg rest := by
        simp [registerAll, hval]
      rw [hstep, ih reg]
      cases h : getSystem i reg <;> simp [List.find?, hpred]

theorem buildRegistry_getSystem (i : String) (l : List RawSystem) :
    getSystem i (buildRegistry l) =
      l.find? (fun c => validateSystem c && decide (idStr c = some i)) := by
  rw [buildRegistry, registerAll_getSystem]
  rfl

theorem regInv_buildRegistry (l : List RawSystem) : regInv (buildRegistry l) :=
  regInv_registerAll l [] ⟨by simp, by simp⟩

theorem getSystem_mem (i : String) (reg : List (String × RawSystem)) (c : RawSystem)
    (h : getSystem i reg = some c) : c ∈ getAllSystems reg := by
  unfold getSystem at h
  cases hf : reg.find? (fun p => p.1 == i) with
  | none => rw [hf] at h; simp at h
  | some p =>
    rw [hf] at h
    simp only [Option.map] at h
    have hpc : p.2 = c := by injection h
    exact List.mem_map.2 ⟨p, List.mem_of_find?_eq_some hf, hpc⟩

theorem regInv_find_mem :
    ∀ reg : List (String × RawSystem), regInv reg → ∀ k c, (k, c) ∈ reg →
      getSystem k reg = some c := by
  intro reg
  induction reg with
  | nil => intro _ k c h; simp at h
  | cons p rest ih =>
    intro hinv k c hmem
    have hinvrest : regInv rest :=
      ⟨fun q hq => hinv.1 q (List.mem_cons_of_mem _ hq), (List.nodup_cons.1 hinv.2).2⟩
    rcases List.mem_cons.1 hmem with hmem | hmem
    · subst hmem
      simp [getSystem, List.find?]
    · cases hpk : (p.1 == k) with
      | true =>
        exfalso
        have : k ∈ rest.map Prod.fst := List.mem_map.2 ⟨(k, c), hmem, rfl⟩
        have hk : p.1 = k := by simpa using hpk
        exact (List.nodup_cons.1 hinv.2).1 (hk ▸ this)
      | false =>
        have := ih hinvrest k c hmem
        simpa [getSystem, List.find?, hpk] using this

theorem mem_getAll_idStr (l : List RawSystem) (c : RawSystem)
    (hc : c ∈ getAllSystems (buildRegistry l)) (k : String) (hk : idStr c = some k) :
    getSystem k (buildRegistry l) = some c := by
  rcases List.mem_map.1 hc with ⟨p, hp, rfl⟩
  have hinv := regInv_buildRegistry l
  have hpk : p.1 = k := by
    have := (hinv.1 p hp).2
    rw [hk] at this
    exact (Option.some.injEq _ _ ▸ this).symm
  have : (k, p.2) ∈ buildRegistry l := by
    have hpair : p = (k, p.2) := by
      cases p with
      | mk a b => simpa using hpk
    exact hpair ▸ hp
  exact regInv_find_mem _ hinv k p.2 this

theorem registerAll_getAll_sublist (l : List RawSystem) :
    ∀ reg, ∃ t, getAllSystems (registerAll reg l) = getAllSystems reg ++ t
      ∧ t.Sublist l := by
  induction l with
  | nil => intro reg; exact ⟨[], by simp [registerAll, getAllSystems], List.nil_sublist _⟩
  | cons c rest ih =>
    intro reg
    by_cases hval : validateSystem c = true
    · cases hid : idStr c with
      | none =>
        rcases ih reg with ⟨t, ht, hs⟩
        exact ⟨t, by simpa [registerAll, hval, hid] using ht, hs.cons c⟩
      | some j =>
        by_cases hany : reg.any (fun p => p.1 == j) = true
        · rcases ih reg with ⟨t, ht, hs⟩
          exact ⟨t, by simpa [registerAll, hval, hid, hany] using ht, hs.cons c⟩
        · rcases ih (reg ++ [(j, c)]) with ⟨t, ht, hs⟩
          refine ⟨c :: t, ?_, hs.cons₂ c⟩
          have hstep : registerAll reg (c :: rest) = registerAll (reg ++ [(j, c)]) rest := by
            simp [registerAll, hval, hid, hany]
          rw [hstep, ht]
          simp [getAllSystems]
    · rcases ih reg with ⟨t, ht, hs⟩
      exact ⟨t, by simpa [registerAll, hval] using ht, hs.cons c⟩

theorem getAll_sublist (l : List RawSystem) :
    (getAllSystems (buildRegistry l)).Sublist l := by
  rcases registerAll_getAll_sublist l [] with ⟨t, ht, hs⟩
  rw [buildRegistry, ht]
  simpa [getAllSystems] using hs

theorem regInv_getAll_nodup :
    ∀ reg : List (String × RawSystem), regInv reg → (getAllSystems reg).Nodup := by
  intro reg
  induction reg with
  | nil => intro _; simp [getAllSystems]
  | cons p rest ih =>
    intro hinv
    have hinvrest : regInv rest :=
      ⟨fun q hq => hinv.1 q (List.mem_cons_of_mem _ hq), (List.nodup_cons.1 hinv.2).2⟩
    simp only [getAllSystems, List.map_cons, List.nodup_cons]
    refine ⟨?_, ih hinvrest⟩
    intro hmem
    rcases List.mem_map.1 hmem with ⟨q, hq, hqe⟩
    have h1 := (hinv.1 p (List.mem_cons_self _ _)).2
    have h2 := (hinv.1 q (List.mem_cons_of_mem _ hq)).2
    rw [hqe] at h2
    rw [h1] at h2
    have hfst : q.1 = p.1 := by
      simpa using h2.symm
    exact (List.nodup_cons.1 hinv.2).1
      (List.mem_map.2 ⟨q, hq, hfst⟩)

/-! ## Claims about the registry -/

/-- C1 (amended): a candidate whose `id`, `name` or `description` is missing or
not a string, or whose `format` is missing or not callable, is excluded from
the registry without any exception: it never appears in
`getAll()`/`getAllSystems()` and `getById`/`getSystem` never returns it (the
lookup of its id is absent unless a different, well-formed candidate in the
list carries the same id); and every well-formed candidate no earlier
well-formed candidate of the list shares an id with is accepted: it is
retrievable by its id and appears in the enumeration. -/
theorem C1_registry_validation (l₁ l₂ : List RawSystem) (c : RawSystem) :
    (validateSystem c = false →
        c ∉ getAllSystems (buildRegistry (l₁ ++ c :: l₂))
      ∧ ∀ i, getSystem i (buildRegistry (l₁ ++ c :: l₂)) ≠ some c)
  ∧ (validateSystem c = true →
      ∀ i, idStr c = some i →
      (∀ c' ∈ l₁, ¬(validateSystem c' = true ∧ idStr c' = some i)) →
        getSystem i (buildRegistry (l₁ ++ c :: l₂)) = some c
      ∧ c ∈ getAllSystems (buildRegistry (l₁ ++ c :: l₂))) := by
  constructor
  · intro hbad
    constructor
    · intro hmem
      rcases List.mem_map.1 hmem with ⟨p, hp, hpe⟩
      have := ((regInv_buildRegistry _).1 p hp).1
      rw [hpe, hbad] at this
      exact Bool.false_ne_true this
    · intro i hget
      have hmem := getSystem_mem i _ c hget
      rcases List.mem_map.1 hmem with ⟨p, hp, hpe⟩
      have := ((regInv_buildRegistry _).1 p hp).1
      rw [hpe, hbad] at this
      exact Bool.false_ne_true this
  · intro hval i hid hpre
    have hfind : getSystem i (buildRegistry (l₁ ++ c :: l₂)) = some c := by
      rw [buildRegistry_getSystem]
      rw [find?_append_none]
      · simp [List.find?, hval, hid]
      · rw [List.find?_eq_none]
        intro c' hc'
        have := hpre c' hc'
        simp only [Bool.and_eq_true, decide_eq_true_eq]
        intro hcontra
        exact this hcontra
    exact ⟨hfind, getSystem_mem i _ c hfind⟩

/-- C1 counterexample to the claim as stated: with the registration list
`[badX, goodX]` the malformed candidate `badX` (id "x", `format` not callable)
is excluded, yet `getSystem "x"` is not absent — it returns the well-formed
`goodX` — so "getById of its id returns absent" fails. -/
theorem C1_counterexample :
    validateSystem badX = false
  ∧ idStr badX = some "x"
  ∧ getSystem "x" (buildRegistry [badX, goodX]) = some goodX := by
  refine ⟨rfl, rfl, ?_⟩
  rfl

/-- C1 witness: concrete instances of both halves of the amended claim. -/
theorem C1_witness :
    badX ∉ getAllSystems (buildRegistry [badX])
  ∧ getSystem "x" (buildRegistry [goodX]) = some goodX :=
  ⟨((C1_registry_validation [] [] badX).1 rfl).1,
   ((C1_registry_validation [] [] goodX).2 rfl "x" rfl (by simp)).1⟩

/-- C2: in a registration list whose first well-formed candidate with id `i`
is `c₁`, and which later also contains a distinct well-formed `c₂` with the
same id, only `c₁` is retrievable under `i` and `c₂` never appears in
`getAllSystems`; moreover for every registration list the accepted providers
enumerate without duplicates, in registration order (a sublist of the input
list). -/
theorem C2_registry_dedup (l₁ l₂ l₃ : List RawSystem) (c₁ c₂ : RawSystem) (i : String)
    (hv₁ : validateSystem c₁ = true) (hi₁ : idStr c₁ = some i)
    (hv₂ : validateSystem c₂ = true) (hi₂ : idStr c₂ = some i)
    (hpre : ∀ c' ∈ l₁, ¬(validateSystem c' = true ∧ idStr c' = some i))
    (hne : c₂ ≠ c₁) :
    getSystem i (buildRegistry (l₁ ++ c₁ :: (l₂ ++ c₂ :: l₃))) = some c₁
  ∧ c₂ ∉ getAllSystems (buildRegistry (l₁ ++ c₁ :: (l₂ ++ c₂ :: l₃)))
  ∧ ∀ l : List RawSystem,
      (getAllSystems (buildRegistry l)).Nodup
    ∧ (getAllSystems (buildRegistry l)).Sublist l := by
  have hfirst : getSystem i (buildRegistry (l₁ ++ c₁ :: (l₂ ++ c₂ :: l₃))) = some c₁ := by
    rw [buildRegistry_getSystem, find?_append_none]
    · simp [List.find?, hv₁, hi₁]
    · rw [List.find?_eq_none]
      intro c' hc'
      have := hpre c' hc'
      simp only [Bool.and_eq_true, decide_eq_true_eq]
      intro hcontra
      exact this hcontra
  refine ⟨hfirst, ?_, ?_⟩
  · intro hmem
    have := mem_getAll_idStr _ c₂ hmem i hi₂
    rw [hfirst] at this
    have h12 : c₁ = c₂ := by injection this
    exact hne h12.symm
  · intro l
    exact ⟨regInv_getAll_nodup _ (regInv_buildRegistry l), getAll_sublist l⟩

/-- C2 witness: with the list `[goodX, goodX2]` (same id "x", distinct
providers) only the first is retrievable and the second is not enumerated. -/
theorem C2_witness :
    getSystem "x" (buildRegistry [goodX, goodX2]) = some goodX
  ∧ goodX2 ∉ getAllSystems (buildRegistry [goodX, goodX2]) := by
  have h := C2_registry_dedup [] [] [] goodX goodX2 "x" rfl rfl rfl rfl (by simp)
    (by simp [goodX, goodX2])
  exact ⟨h.1, h.2.1⟩

/-- C3: `getDefaultSystem` returns the accepted provider whose id is
"standard" whenever one is accepted (wherever it sits in registration order);
otherwise it returns the first accepted provider in registration order
(the head of `getAllSystems`); on a non-empty registry it always returns a
provider, and on an empty registry it returns nothing (the fatal
misconfiguration case, `undefined` in the source). -/
theorem C3_registry_default (l : List RawSystem) :
    (∀ c ∈ getAllSystems (buildRegistry l), idStr c = some "standard" →
        getDefaultSystem (buildRegistry l) = some c)
  ∧ (getSystem "standard" (buildRegistry l) = none →
        getDefaultSystem (buildRegistry l) = (getAllSystems (buildRegistry l)).head?)
  ∧ (buildRegistry l ≠ [] → (getDefaultSystem (buildRegistry l)).isSome = true)
  ∧ (buildRegistry l = [] → getDefaultSystem (buildRegistry l) = none) := by
  refine ⟨?_, ?_, ?_, ?_⟩
  · intro c hmem hid
    have := mem_getAll_idStr l c hmem "standard" hid
    simp [getDefaultSystem, this]
  · intro hnone
    simp [getDefaultSystem, hnone]
  · intro hne
    cases hstd : getSystem "standard" (buildRegistry l) with
    | some s => simp [getDefaultSystem, hstd]
    | none =>
      simp only [getDefaultSystem, hstd]
      cases hreg : buildRegistry l with
      | nil => exact absurd hreg hne
      | cons p rest => simp [getAllSystems, hreg]
  · intro hempty
    simp [getDefaultSystem, getSystem, getAllSystems, hempty]

/-- C3 witness: with providers whose ids are, in order,
`["epoch-seconds", "standard", "holocene"]`, the default is the one with id
"standard" even though it is not first. -/
theorem C3_witness :
    getDefaultSystem (buildRegistry [sysEpoch, sysStandard, sysHolocene]) =
      some sysStandard :=
  (C3_registry_default [sysEpoch, sysStandard, sysHolocene]).1 sysStandard
    (show sysStandard ∈ [sysEpoch, sysStandard, sysHolocene] from
      List.mem_cons_of_mem _ (List.mem_cons_self _ _)) rfl

/-! ## Claims about the renderer -/

/-- C4: `render` is idempotent — rendering the same display twice leaves the
target exactly as rendering it once — and, more strongly, its output is
independent of the prior container state, because it first clears all prior
children and then sets the variant classification
(`display display--<type>`). -/
theorem C4_render_idempotent (d : TimeDisplay) (c c' : Container) :
    render d (render d c) = render d c
  ∧ render d c' = render d c
  ∧ (render d c).className = "display display--" ++ d.typeName := by
  cases d <;> exact ⟨rfl, rfl, rfl⟩

theorem intersperse_cons_flat {α : Type} (a : α) :
    ∀ (l : List α) (x : α),
      List.intersperse a (x :: l) = x :: l.flatMap (fun y => [a, y]) := by
  intro l
  induction l with
  | nil => intro x; rfl
  | cons y rest ih =>
    intro x
    rw [List.intersperse_cons_cons, ih y]
    rfl

theorem segLoop_succ (sepTxt : String) :
    ∀ (l : List Segment) (i : ℕ),
      segLoop sepTxt (i + 1) l = l.flatMap (fun s => [sepSpan sepTxt, segNode s]) := by
  intro l
  induction l with
  | nil => intro i; rfl
  | cons s rest ih =>
    intro i
    simp only [segLoop, Nat.zero_lt_succ, if_true, List.flatMap_cons, ih]
    rfl

theorem segLoop_eq_intersperse (sepTxt : String) (s : Segment) (rest : List Segment) :
    segLoop sepTxt 0 (s :: rest) =
      List.intersperse (sepSpan sepTxt) ((s :: rest).map segNode) := by
  rw [List.map_cons, intersperse_cons_flat]
  simp only [segLoop, Nat.lt_irrefl, if_false, List.nil_append, List.singleton_append]
  rw [segLoop_succ]
  congr 1
  rw [List.flatMap_map]

theorem countClsL_append (cls : String) :
    ∀ l₁ l₂ : List DNode, countClsL cls (l₁ ++ l₂) = countClsL cls l₁ + countClsL cls l₂
  | [], l₂ => by simp [countClsL]
  | .text s :: rest, l₂ => by
    simp only [List.cons_append, countClsL, countClsL_append cls rest l₂]
  | .elem t c kids :: rest, l₂ => by
    simp only [List.cons_append, countClsL, countClsL_append cls rest l₂]
    ring

theorem countClsL_textChildren (cls : String) (s : String) :
    countClsL cls (textChildren s) = 0 := by
  unfold textChildren
  split <;> simp [countClsL]

theorem countClsL_segNode (s : Segment) :
    countClsL "display__seg-separator" [segNode s] = 0 := by
  simp [segNode, spanNode, countClsL, countClsL_textChildren]

theorem countClsL_sepSpan (txt : String) :
    countClsL "display__seg-separator" [sepSpan txt] = 1 := by
  simp [sepSpan, spanNode, countClsL, countClsL_textChildren]

theorem countClsL_intersperse_sep (txt : String) :
    ∀ (rest : List Segment) (s : Segment),
      countClsL "display__seg-separator"
          (List.intersperse (sepSpan txt) ((s :: rest).map segNode)) =
        rest.length := by
  intro rest
  induction rest with
  | nil =>
    intro s
    simp [List.intersperse, countClsL_segNode]
  | cons s' rest' ih =>
    intro s
    rw [List.map_cons, List.map_cons, List.intersperse_cons_cons]
    have hsplit : segNode s :: sepSpan txt
          :: List.intersperse (sepSpan txt) (segNode s' :: List.map segNode rest')
        = [segNode s] ++ [sepSpan txt]
          ++ List.intersperse (sepSpan txt) ((s' :: rest').map segNode) := by
      simp
    rw [hsplit, countClsL_append, countClsL_append, countClsL_segNode, countClsL_sepSpan,
      ih s']
    simp [Nat.add_comm]

/-- C5: rendering a `Segmented` display with `n ≥ 1` segments paints the
segments in sequence order with the separator span interleaved strictly
between consecutive segments — the segments container's children are exactly
`List.intersperse` of the separator over the segment nodes (so none before
the first and none after the last) — and exactly `n − 1` separator nodes are
produced; the separator text is the `separator` field, or ":" when it is
omitted. -/
theorem C5_segmented_separators (d : SegmentedDisplay) (c : Container)
    (hn : d.segments ≠ []) :
    (render (.segmented d) c).children =
      [DNode.elem "div" "display__segments"
        (List.intersperse (sepSpan (d.separator.getD ":")) (d.segments.map segNode))]
  ∧ countClsL "display__seg-separator" (render (.segmented d) c).children =
      d.segments.length - 1 := by
  obtain ⟨s, rest, hseg⟩ : ∃ s rest, d.segments = s :: rest := by
    cases hseg : d.segments with
    | nil => exact absurd hseg hn
    | cons s rest => exact ⟨s, rest, rfl⟩
  have hchild : (render (.segmented d) c).children =
      [DNode.elem "div" "display__segments"
        (segLoop (d.separator.getD ":") 0 d.segments)] := rfl
  constructor
  · rw [hchild, hseg, segLoop_eq_intersperse]
  · rw [hchild, hseg, segLoop_eq_intersperse]
    simp only [countClsL, countClsL_intersperse_sep, List.length_cons]
    simp

/-- C5 witness: three segments produce exactly two separator nodes. -/
theorem C5_witness :
    countClsL "display__seg-separator"
      (render (.segmented demoSegmented) emptyContainer).children = 2 :=
  (C5_segmented_separators demoSegmented emptyContainer (by simp [demoSegmented])).2

theorem countClsL_spanNode (cls c t : String) :
    countClsL cls [spanNode c t] = if c == cls then 1 else 0 := by
  simp [spanNode, countClsL, countClsL_textChildren]

theorem countClsL_divNode (cls c t : String) :
    countClsL cls [divNode c t] = if c == cls then 1 else 0 := by
  simp [divNode, countClsL, countClsL_textChildren]

/-- C9: `render` treats optional text fields holding the empty string exactly
like absent ones (each gate is string truthiness, not presence): an empty
`prefix`, `suffix`, `label` or `sublabel` of a Unified display, and an empty
`era` or `period` of a Split display, produce output equal to the
absent-field output and contain no node of the corresponding class. -/
theorem C9_empty_string_optionals (u : UnifiedDisplay) (sp : SplitDisplay) :
    (renderUnified { u with pre := some "" } = renderUnified { u with pre := none }
      ∧ countClsL "display__prefix" (renderUnified { u with pre := some "" }) = 0)
  ∧ (renderUnified { u with suf := some "" } = renderUnified { u with suf := none }
      ∧ countClsL "display__suffix" (renderUnified { u with suf := some "" }) = 0)
  ∧ (renderUnified { u with label := some "" } = renderUnified { u with label := none }
      ∧ countClsL "display__label" (renderUnified { u with label := some "" }) = 0)
  ∧ (renderUnified { u with sublabel := some "" } = renderUnified { u with sublabel := none }
      ∧ countClsL "display__sublabel" (renderUnified { u with sublabel := some "" }) = 0)
  ∧ (renderSplit { sp with date := { sp.date with era := some "" } }
        = renderSplit { sp with date := { sp.date with era := none } }
      ∧ countClsL "display__era"
          (renderSplit { sp with date := { sp.date with era := some "" } }) = 0)
  ∧ (renderSplit { sp with time := { sp.time with period := some "" } }
        = renderSplit { sp with time := { sp.time with period := none } }
      ∧ countClsL "display__period"
          (renderSplit { sp with time := { sp.time with period := some "" } }) = 0) := by
  refine ⟨⟨?_, ?_⟩, ⟨?_, ?_⟩, ⟨?_, ?_⟩, ⟨?_, ?_⟩, ⟨?_, ?_⟩, ⟨?_, ?_⟩⟩
  · simp [renderUnified, truthy]
  · simp [renderUnified, truthy, countClsL, spanNode, divNode, countClsL_append,
      countClsL_textChildren, apply_ite (countClsL "display__prefix")]
  · simp [renderUnified, truthy]
  · simp [renderUnified, truthy, countClsL, spanNode, divNode, countClsL_append,
      countClsL_textChildren, apply_ite (countClsL "display__suffix")]
  · simp [renderUnified, truthy]
  · simp [renderUnified, truthy, countClsL, spanNode, divNode, countClsL_append,
      countClsL_textChildren, apply_ite (countClsL "display__label")]
  · simp [renderUnified, truthy]
  · simp [renderUnified, truthy, countClsL, spanNode, divNode, countClsL_append,
      countClsL_textChildren, apply_ite (countClsL "display__sublabel")]
  · simp [renderSplit, truthy]
  · simp [renderSplit, truthy, countClsL, spanNode, divNode, countClsL_append,
      countClsL_textChildren, apply_ite (countClsL "display__era")]
  · simp [renderSplit, truthy]
  · simp [renderSplit, truthy, countClsL, spanNode, divNode, countClsL_append,
      countClsL_textChildren, apply_ite (countClsL "display__period")]

/-! ## Lemmas about the SVG node model -/

theorem qselL_append (tok : String) (l₁ l₂ : List SNode) :
    qselL tok (l₁ ++ l₂) =
      match qselL tok l₁ with
      | some m => some m
      | none => qselL tok l₂ := by
  induction l₁ with
  | nil => rfl
  | cons n rest ih =>
    simp only [List.cons_append, qselL]
    cases hq : qsel1 tok n with
    | some m => rfl
    | none => exact ih

theorem qsel1_none_parts (tok : String) (t : String) (a : List (String × AVal))
    (cs : List SNode) (h : qsel1 tok (.mk t a cs) = none) :
    classMatch tok (.mk t a cs) = false ∧ qselL tok cs = none := by
  by_cases hcm : classMatch tok (.mk t a cs) = true
  · simp [qsel1, hcm] at h
  · simp only [Bool.not_eq_true] at hcm
    simp only [qsel1, hcm, Bool.false_eq_true, if_false] at h
    exact ⟨hcm, h⟩

theorem updL_of_qselL_none (tok : String) (f : SNode → SNode) :
    ∀ l : List SNode, qselL tok l = none → updL tok f l = l := by
  intro l h
  induction l with
  | nil => rfl
  | cons n rest ih =>
    simp only [qselL] at h
    cases hq : qsel1 tok n with
    | some m => rw [hq] at h; simp at h
    | none =>
      rw [hq] at h
      cases n with
      | mk t a cs =>
        rcases qsel1_none_parts tok t a cs hq with ⟨hcm, _⟩
        simp [updL, hcm, hq, ih h]

theorem updL_append_none (tok : String) (f : SNode → SNode) (l₁ l₂ : List SNode)
    (h : qselL tok l₁ = none) : updL tok f (l₁ ++ l₂) = l₁ ++ updL tok f l₂ := by
  induction l₁ with
  | nil => rfl
  | cons n rest ih =>
    simp only [qselL] at h
    cases hq : qsel1 tok n with
    | some m => rw [hq] at h; simp at h
    | none =>
      rw [hq] at h
      cases n with
      | mk t a cs =>
        rcases qsel1_none_parts tok t a cs hq with ⟨hcm, _⟩
        simp [updL, hcm, hq, ih h]

theorem updL_skip_then_match (tok : String) (g : SNode → SNode) :
    ∀ (pre : List SNode), (∀ n ∈ pre, classMatch tok n = false ∧ n.kids = []) →
      ∀ (x : SNode), classMatch tok x = true → ∀ (rest : List SNode),
        updL tok g (pre ++ x :: rest) = pre ++ g x :: rest := by
  intro pre
  induction pre with
  | nil =>
    intro _ x hx rest
    simp [updL, hx]
  | cons p pre' ih =>
    intro hpre x hx rest
    have hp := hpre p (List.mem_cons_self _ _)
    have hq : qsel1 tok p = none := by
      cases p with
      | mk t a cs =>
        have hkids : cs = [] := hp.2
        subst hkids
        simp [qsel1, hp.1, qselL]
    simp only [List.cons_append, updL, hp.1, Bool.false_eq_true, if_false, hq,
      Option.isSome_none, List.append_eq]
    rw [ih (fun n hn => hpre n (List.mem_cons_of_mem _ hn)) x hx rest]

theorem qselL_skip_then_match (tok : String) :
    ∀ (pre : List SNode), (∀ n ∈ pre, classMatch tok n = false ∧ n.kids = []) →
      ∀ (x : SNode), classMatch tok x = true → ∀ (rest : List SNode),
        qselL tok (pre ++ x :: rest) = some x := by
  intro pre
  induction pre with
  | nil =>
    intro _ x hx rest
    cases x with
    | mk t a cs => simp [qselL, qsel1, hx]
  | cons p pre' ih =>
    intro hpre x hx rest
    have hp := hpre p (List.mem_cons_self _ _)
    have hq : qsel1 tok p = none := by
      cases p with
      | mk t a cs =>
        have hkids : cs = [] := hp.2
        subst hkids
        simp [qsel1, hp.1, qselL]
    simp only [List.cons_append, qselL, hq]
    exact ih (fun n hn => hpre n (List.mem_cons_of_mem _ hn)) x hx rest

theorem qselL_leaf_none (tok : String) :
    ∀ l : List SNode, (∀ n ∈ l, classMatch tok n = false ∧ n.kids = []) →
      qselL tok l = none := by
  intro l
  induction l with
  | nil => intro _; rfl
  | cons p rest ih =>
    intro h
    have hp := h p (List.mem_cons_self _ _)
    have hq : qsel1 tok p = none := by
      cases p with
      | mk t a cs =>
        have hkids : cs = [] := hp.2
        subst hkids
        simp [qsel1, hp.1, qselL]
    simp only [qselL, hq]
    exact ih (fun n hn => h n (List.mem_cons_of_mem _ hn))

theorem getAttr_setA_ne (k name : String) (v : AVal) (hk : (name == k) = false) :
    ∀ a : List (String × AVal), getAttr k (setA name v a) = getAttr k a := by
  intro a
  induction a with
  | nil => simp [setA, getAttr, hk]
  | cons p rest ih =>
    cases hkn : (p.1 == name) with
    | true =>
      have hpk : (p.1 == k) = false := by
        have h1 : p.1 = name := by simpa using hkn
        subst h1
        exact hk
      cases p with
      | mk k' w => simp_all [setA, getAttr]
    | false =>
      cases p with
      | mk k' w =>
        simp only at hkn
        simp [setA, getAttr, hkn, ih]

theorem filter_setA_class (name : String) (v : AVal) (hname : (name == "class") = false) :
    ∀ a : List (String × AVal),
      (setA name v a).filter (fun p => p.1 == "class") =
        a.filter (fun p => p.1 == "class") := by
  intro a
  induction a with
  | nil => simp [setA, hname]
  | cons p rest ih =>
    cases hkn : (p.1 == name) with
    | true =>
      have h1 : p.1 = name := by simpa using hkn
      cases p with
      | mk k' w =>
        simp only at h1
        subst h1
        simp [setA, List.filter, hname, ih]
    | false =>
      cases p with
      | mk k' w =>
        simp only at hkn
        simp only [setA, hkn, Bool.false_eq_true, if_false]
        simp [List.filter, ih]

theorem SNode.kids_setAttr (n : SNode) (name : String) (v : AVal) :
    (n.setAttr name v).kids = n.kids := by
  cases n with
  | mk t a cs => rfl

theorem classMatch_setAttr (tok name : String) (v : AVal) (n : SNode)
    (hname : (name == "class") = false) :
    classMatch tok (n.setAttr name v) = classMatch tok n := by
  cases n with
  | mk t a cs =>
    simp only [SNode.setAttr, classMatch]
    rw [getAttr_setA_ne "class" name v hname a]

theorem skel1_setAttr (n : SNode) (name : String) (v : AVal)
    (hname : (name == "class") = false) : skel1 (n.setAttr name v) = skel1 n := by
  cases n with
  | mk t a cs =>
    simp only [SNode.setAttr, skel1]
    rw [filter_setA_class name v hname a]

theorem classMatch_updIn (tok tok' : String) (g : SNode → SNode) (n : SNode) :
    classMatch tok (updIn tok' g n) = classMatch tok n := by
  cases n with
  | mk t a cs => rfl

mutual
theorem upd1_skel (tok : String) (f : SNode → SNode) (hf : skelPres f) :
    ∀ n : SNode, skel1 (upd1 tok f n) = skel1 n
  | .mk t a cs => by
    simp only [upd1]
    split
    · simp only [skel1, updL_skel tok f hf cs]
    · rfl

theorem updL_skel (tok : String) (f : SNode → SNode) (hf : skelPres f) :
    ∀ l : List SNode, skelL (updL tok f l) = skelL l
  | [] => rfl
  | n :: rest => by
    simp only [updL]
    split
    · simp only [skelL, hf n]
    · split
      · simp only [skelL, upd1_skel tok f hf n]
      · simp only [skelL, updL_skel tok f hf rest]
end

theorem skelPres_updIn (tok : String) (g : SNode → SNode) (hg : skelPres g) :
    skelPres (updIn tok g) := by
  intro n
  cases n with
  | mk t a cs =>
    simp only [updIn, skel1, updL_skel tok g hg cs]

theorem skelPres_setHandEnd (len deg : ℚ) : skelPres (setHandEnd len deg) := by
  intro n
  unfold setHandEnd
  rw [skel1_setAttr _ "y2" _ (by decide), skel1_setAttr _ "x2" _ (by decide)]

theorem getAttr_filter_class :
    ∀ a : List (String × AVal),
      getAttr "class" (a.filter (fun p => p.1 == "class")) = getAttr "class" a := by
  intro a
  induction a with
  | nil => rfl
  | cons p rest ih =>
    cases p with
    | mk k w =>
      cases hk : (k == "class") with
      | true =>
        have h1 : k = "class" := by simpa using hk
        subst h1
        simp [List.filter, getAttr]
      | false =>
        simp [List.filter, hk, getAttr, ih]

theorem classMatch_skel1 (tok : String) (n : SNode) :
    classMatch tok (skel1 n) = classMatch tok n := by
  cases n with
  | mk t a cs =>
    simp only [skel1, classMatch]
    rw [getAttr_filter_class a]

mutual
theorem qsel1_skel_isSome (tok : String) :
    ∀ n : SNode, (qsel1 tok (skel1 n)).isSome = (qsel1 tok n).isSome
  | .mk t a cs => by
    have hcm := classMatch_skel1 tok (.mk t a cs)
    simp only [skel1] at hcm ⊢
    simp only [qsel1, hcm]
    split
    · rfl
    · exact qselL_skel_isSome tok cs

theorem qselL_skel_isSome (tok : String) :
    ∀ l : List SNode, (qselL tok (skelL l)).isSome = (qselL tok l).isSome
  | [] => rfl
  | n :: rest => by
    simp only [skelL, qselL]
    have h1 := qsel1_skel_isSome tok n
    cases hq : qsel1 tok n with
    | some m =>
      rw [hq] at h1
      cases hq' : qsel1 tok (skel1 n) with
      | some m' => rfl
      | none => rw [hq'] at h1; simp at h1
    | none =>
      rw [hq] at h1
      cases hq' : qsel1 tok (skel1 n) with
      | some m' => rw [hq'] at h1; simp at h1
      | none => exact qselL_skel_isSome tok rest
end

theorem qsel1_of_classMatch (tok : String) (n : SNode) (h : classMatch tok n = true) :
    qsel1 tok n = some n := by
  cases n with
  | mk t a cs => simp [qsel1, h]

mutual
theorem qsel1_upd1_isSome (tok : String) (f : SNode → SNode)
    (hf : ∀ n, classMatch tok (f n) = classMatch tok n) :
    ∀ n : SNode, (qsel1 tok (upd1 tok f n)).isSome = (qsel1 tok n).isSome
  | .mk t a cs => by
    simp only [upd1]
    split
    · have hcm2 : classMatch tok (SNode.mk t a (updL tok f cs)) =
          classMatch tok (SNode.mk t a cs) := by
        simp only [classMatch]
      cases hcm : classMatch tok (SNode.mk t a cs) with
      | true => simp [qsel1, hcm, hcm2]
      | false =>
        simp only [qsel1, hcm2, hcm, Bool.false_eq_true, if_false]
        exact qselL_updL_isSome tok f hf cs
    · rfl

theorem qselL_updL_isSome (tok : String) (f : SNode → SNode)
    (hf : ∀ n, classMatch tok (f n) = classMatch tok n) :
    ∀ l : List SNode, (qselL tok (updL tok f l)).isSome = (qselL tok l).isSome
  | [] => rfl
  | n :: rest => by
    by_cases hcm : classMatch tok n = true
    · have hfcm := hf n
      rw [hcm] at hfcm
      simp only [updL, hcm, if_true, qselL, qsel1_of_classMatch tok (f n) hfcm,
        qsel1_of_classMatch tok n hcm]
      rfl
    · simp only [Bool.not_eq_true] at hcm
      by_cases hq : (qsel1 tok n).isSome = true
      · have h1 := qsel1_upd1_isSome tok f hf n
        simp only [updL, hcm, Bool.false_eq_true, if_false, hq, if_true, qselL]
        rw [hq] at h1
        cases hq1 : qsel1 tok (upd1 tok f n) with
        | some m =>
          rcases Option.isSome_iff_exists.1 hq with ⟨m2, hm2⟩
          rw [hm2]
          rfl
        | none => rw [hq1] at h1; simp at h1
      · simp only [Bool.not_eq_true] at hq
        have hqn : qsel1 tok n = none := by
          cases hqq : qsel1 tok n with
          | some m => rw [hqq] at hq; simp at hq
          | none => rfl
        simp only [updL, hcm, Bool.false_eq_true, if_false, hq, qselL, hqn]
        exact qselL_updL_isSome tok f hf rest
end

theorem qselL_singleton_match (tok : String) (x : SNode) (h : classMatch tok x = true) :
    qselL tok [x] = some x := by
  cases x with
  | mk t a cs => simp [qselL, qsel1, h]

theorem updL_singleton_match (tok : String) (g : SNode → SNode) (x : SNode)
    (h : classMatch tok x = true) : updL tok g [x] = [g x] := by
  cases x with
  | mk t a cs => simp [updL, h]

theorem updL_pair (tok : String) (g : SNode → SNode) (a b : SNode)
    (ha : classMatch tok a = false) (hak : a.kids = []) (hb : classMatch tok b = true) :
    updL tok g [a, b] = [a, g b] := by
  have h := updL_skip_then_match tok g [a]
    (by
      intro n hn
      simp only [List.mem_singleton] at hn
      subst hn
      exact ⟨ha, hak⟩) b hb []
  simpa using h

theorem qselL_pair (tok : String) (a b : SNode)
    (ha : classMatch tok a = false) (hak : a.kids = []) (hb : classMatch tok b = true) :
    qselL tok [a, b] = some b := by
  have h := qselL_skip_then_match tok [a]
    (by
      intro n hn
      simp only [List.mem_singleton] at hn
      subst hn
      exact ⟨ha, hak⟩) b hb []
  simpa using h

theorem classMatch_barSvg : classMatch "visual__svg" barSvg = true := rfl

theorem renderBar_fresh (v : ProgressBarVisual) (t : Inst) (c : List SNode)
    (hc : qselL "visual__svg" c = none) :
    renderProgressBar v t c = c ++
      [updIn "visual__fill"
        (fun fill => fill.setAttr "width" (.n (min (v.getValue t / v.max) 1 * VISUAL_SIZE)))
        barSvg] := by
  simp only [renderProgressBar, hc]
  rw [updL_append_none _ _ c _ hc,
    updL_singleton_match _ _ _ classMatch_barSvg]

theorem fillWidth_of_bar_svg (w : ℚ) (c : List SNode)
    (hc : qselL "visual__svg" c = none) :
    fillWidth (c ++ [updIn "visual__fill" (fun fill => fill.setAttr "width" (.n w)) barSvg]) =
      some w := by
  have hcmX : classMatch "visual__svg"
      (updIn "visual__fill" (fun fill => fill.setAttr "width" (.n w)) barSvg) = true := by
    rw [classMatch_updIn]
    exact classMatch_barSvg
  have hkids : (updIn "visual__fill" (fun fill => fill.setAttr "width" (.n w)) barSvg).kids
      = [barTrack, barFill.setAttr "width" (.n w)] := by
    show updL "visual__fill" _ [barTrack, barFill] = _
    exact updL_pair _ _ _ _ rfl rfl rfl
  have hfillcm : classMatch "visual__fill" (barFill.setAttr "width" (.n w)) = true := by
    rw [classMatch_setAttr "visual__fill" "width" (.n w) barFill (by decide)]
    rfl
  unfold fillWidth
  rw [qselL_append, hc, qselL_singleton_match _ _ hcmX]
  simp only [Option.some_bind]
  rw [hkids, qselL_pair "visual__fill" barTrack _ rfl rfl hfillcm]
  simp only [Option.some_bind]
  rfl

/-- C6: for a `ProgressBar` visual with `max > 0`, `renderVisual` on a
container not yet holding a visual (and on every subsequent call on its
output) sets the fill width to `min(getValue(instant)/max, 1) × VISUAL_SIZE`
(the fixed 120-unit visual width): values above `max` clamp to a full bar,
while no lower clamp exists, so a negative `getValue` yields a negative fill
width. -/
theorem C6_progress_bar_fill (v : ProgressBarVisual) (t : Inst) (c : List SNode)
    (hmax : 0 < v.max) (hc : qselL "visual__svg" c = none) :
    fillWidth (renderVisual (.bar v) t c) =
      some (min (v.getValue t / v.max) 1 * VISUAL_SIZE)
  ∧ (∀ t₂ : Inst, fillWidth (renderVisual (.bar v) t₂ (renderVisual (.bar v) t c)) =
      some (min (v.getValue t₂ / v.max) 1 * VISUAL_SIZE))
  ∧ (∀ w : ℚ, fillWidth (renderVisual (.bar v) t c) = some w → v.getValue t < 0 → w < 0) := by
  have hfresh := renderBar_fresh v t c hc
  have hcmX : classMatch "visual__svg"
      (updIn "visual__fill"
        (fun fill => fill.setAttr "width" (.n (min (v.getValue t / v.max) 1 * VISUAL_SIZE)))
        barSvg) = true := by
    rw [classMatch_updIn]
    exact classMatch_barSvg
  have h1 : fillWidth (renderVisual (.bar v) t c) =
      some (min (v.getValue t / v.max) 1 * VISUAL_SIZE) := by
    show fillWidth (renderProgressBar v t c) = _
    rw [hfresh]
    exact fillWidth_of_bar_svg _ c hc
  refine ⟨h1, ?_, ?_⟩
  · intro t₂
    show fillWidth (renderProgressBar v t₂ (renderProgressBar v t c)) = _
    rw [hfresh]
    have h2 : qselL "visual__svg" (c ++ [updIn "visual__fill"
        (fun fill => fill.setAttr "width" (.n (min (v.getValue t / v.max) 1 * VISUAL_SIZE)))
        barSvg]) = some (updIn "visual__fill"
        (fun fill => fill.setAttr "width" (.n (min (v.getValue t / v.max) 1 * VISUAL_SIZE)))
        barSvg) := by
      rw [qselL_append, hc]
      exact qselL_singleton_match _ _ hcmX
    simp only [renderProgressBar, h2]
    rw [updL_append_none _ _ c _ hc, updL_singleton_match _ _ _ hcmX]
    have hcmX2 : classMatch "visual__svg" (updIn "visual__fill"
        (fun fill => fill.setAttr "width" (.n (min (v.getValue t₂ / v.max) 1 * VISUAL_SIZE)))
        (updIn "visual__fill"
          (fun fill => fill.setAttr "width" (.n (min (v.getValue t / v.max) 1 * VISUAL_SIZE)))
          barSvg)) = true := by
      rw [classMatch_updIn, classMatch_updIn]
      exact classMatch_barSvg
    have hkids1 : (updIn "visual__fill"
        (fun fill => fill.setAttr "width" (.n (min (v.getValue t / v.max) 1 * VISUAL_SIZE)))
        barSvg).kids = [barTrack, barFill.setAttr "width"
          (.n (min (v.getValue t / v.max) 1 * VISUAL_SIZE))] := by
      show updL "visual__fill" _ [barTrack, barFill] = _
      exact updL_pair _ _ _ _ rfl rfl rfl
    have hfill1cm : classMatch "visual__fill" (barFill.setAttr "width"
        (.n (min (v.getValue t / v.max) 1 * VISUAL_SIZE))) = true := by
      rw [classMatch_setAttr _ "width" _ barFill (by decide)]
      rfl
    have hkids2 : (updIn "visual__fill"
        (fun fill => fill.setAttr "width" (.n (min (v.getValue t₂ / v.max) 1 * VISUAL_SIZE)))
        (updIn "visual__fill"
          (fun fill => fill.setAttr "width" (.n (min (v.getValue t / v.max) 1 * VISUAL_SIZE)))
          barSvg)).kids
        = [barTrack, (barFill.setAttr "width"
            (.n (min (v.getValue t / v.max) 1 * VISUAL_SIZE))).setAttr "width"
            (.n (min (v.getValue t₂ / v.max) 1 * VISUAL_SIZE))] := by
      show updL "visual__fill" _ (updIn "visual__fill" _ barSvg).kids = _
      rw [hkids1]
      exact updL_pair _ _ _ _ rfl rfl hfill1cm
    have hfill2cm : classMatch "visual__fill" ((barFill.setAttr "width"
        (.n (min (v.getValue t / v.max) 1 * VISUAL_SIZE))).setAttr "width"
        (.n (min (v.getValue t₂ / v.max) 1 * VISUAL_SIZE))) = true := by
      rw [classMatch_setAttr _ "width" _ _ (by decide)]
      exact hfill1cm
    unfold fillWidth
    rw [qselL_append, hc, qselL_singleton_match _ _ hcmX2]
    simp only [Option.some_bind]
    rw [hkids2, qselL_pair "visual__fill" barTrack _ rfl rfl hfill2cm]
    simp only [Option.some_bind]
    rfl
  · intro w hw hneg
    rw [h1] at hw
    have hw2 : w = min (v.getValue t / v.max) 1 * VISUAL_SIZE := by
      injection hw.symm
    have hq : v.getValue t / v.max < 0 := div_neg_of_neg_of_pos hneg hmax
    have hmin : min (v.getValue t / v.max) 1 = v.getValue t / v.max :=
      min_eq_left (le_of_lt (lt_of_lt_of_le hq zero_le_one))
    rw [hw2, hmin]
    have hvs : (0 : ℚ) < VISUAL_SIZE := by norm_num [VISUAL_SIZE]
    exact mul_neg_of_neg_of_pos hq hvs

/-- C6 witness: `max = 100`, `getValue = 50` paints a fill of exactly half the
track's fixed width, and a negative `getValue` paints a negative-width fill. -/
theorem C6_witness :
    fillWidth (renderVisual (.bar demoBar) 0 []) = some (VISUAL_SIZE / 2)
  ∧ ∃ w : ℚ, fillWidth (renderVisual (.bar demoNegBar) 0 []) = some w ∧ w < 0 := by
  constructor
  · have h := (C6_progress_bar_fill demoBar 0 [] (by norm_num [demoBar]) rfl).1
    rw [h]
    norm_num [demoBar, VISUAL_SIZE, min_def]
  · have hneg := C6_progress_bar_fill demoNegBar 0 [] (by norm_num [demoNegBar]) rfl
    refine ⟨min (demoNegBar.getValue 0 / demoNegBar.max) 1 * VISUAL_SIZE, hneg.1, ?_⟩
    exact hneg.2.2 _ hneg.1 (by norm_num [demoNegBar])

theorem classMatch_setHandEnd (tok : String) (len deg : ℚ) (n : SNode) :
    classMatch tok (setHandEnd len deg n) = classMatch tok n := by
  unfold setHandEnd
  rw [classMatch_setAttr _ "y2" _ _ (by decide), classMatch_setAttr _ "x2" _ _ (by decide)]

theorem kids_setHandEnd (len deg : ℚ) (n : SNode) :
    (setHandEnd len deg n).kids = n.kids := by
  unfold setHandEnd
  rw [SNode.kids_setAttr, SNode.kids_setAttr]

theorem marker_leaf (tok : String) (h : ((classTokens "visual__marker").contains tok) = false)
    (d : ℕ) :
    ∀ n ∈ (List.range d).map (markerNode d), classMatch tok n = false ∧ n.kids = [] := by
  intro n hn
  rcases List.mem_map.1 hn with ⟨i, _, rfl⟩
  constructor
  · have h2 : tok ∉ classTokens "visual__marker" := by simpa using h
    simp [classMatch, markerNode, getAttr, h2]
  · rfl

theorem clock_pre1 (tok : String) (hface : classMatch tok faceNode = false)
    (hmk : ((classTokens "visual__marker").contains tok) = false) (d : ℕ) :
    ∀ n ∈ faceNode :: (List.range d).map (markerNode d),
      classMatch tok n = false ∧ n.kids = [] := by
  intro n hn
  rcases List.mem_cons.1 hn with hn | hn
  · subst hn
    exact ⟨hface, rfl⟩
  · exact marker_leaf tok hmk d n hn

theorem updL_clock_hour (d : ℕ) (g : SNode → SNode) (rest : List SNode) :
    updL "visual__hand--hour" g
        ((faceNode :: (List.range d).map (markerNode d)) ++ hourHand0 :: rest)
      = (faceNode :: (List.range d).map (markerNode d)) ++ g hourHand0 :: rest :=
  updL_skip_then_match _ g _ (clock_pre1 _ (by decide) (by decide) d) hourHand0 (by decide) rest

theorem qselL_clock_hour (d : ℕ) (x : SNode)
    (hx : classMatch "visual__hand--hour" x = true) (rest : List SNode) :
    qselL "visual__hand--hour"
        ((faceNode :: (List.range d).map (markerNode d)) ++ x :: rest) = some x :=
  qselL_skip_then_match _ _ (clock_pre1 _ (by decide) (by decide) d) x hx rest

theorem pre_append_leaf (tok : String) (l : List SNode)
    (hl : ∀ n ∈ l, classMatch tok n = false ∧ n.kids = []) (x : SNode)
    (hx : classMatch tok x = false) (hxk : x.kids = []) :
    ∀ n ∈ l ++ [x], classMatch tok n = false ∧ n.kids = [] := by
  intro n hn
  rcases List.mem_append.1 hn with hn | hn
  · exact hl n hn
  · simp only [List.mem_singleton] at hn
    subst hn
    exact ⟨hx, hxk⟩

theorem updL_clock_minute (d : ℕ) (h' : SNode)
    (hh1 : classMatch "visual__hand--minute" h' = false) (hh2 : h'.kids = [])
    (g : SNode → SNode) (rest : List SNode) :
    updL "visual__hand--minute" g
        ((faceNode :: (List.range d).map (markerNode d)) ++ h' :: minuteHand0 :: rest)
      = (faceNode :: (List.range d).map (markerNode d)) ++ h' :: g minuteHand0 :: rest := by
  rw [List.append_cons _ h' (minuteHand0 :: rest),
    updL_skip_then_match _ g _
      (pre_append_leaf _ _ (clock_pre1 _ (by decide) (by decide) d) h' hh1 hh2)
      minuteHand0 (by decide) rest]
  rw [← List.append_cons]

theorem updL_clock_second (d : ℕ) (h' m' : SNode)
    (hh1 : classMatch "visual__hand--second" h' = false) (hh2 : h'.kids = [])
    (hm1 : classMatch "visual__hand--second" m' = false) (hm2 : m'.kids = [])
    (g : SNode → SNode) (rest : List SNode) :
    updL "visual__hand--second" g
        ((faceNode :: (List.range d).map (markerNode d)) ++ h' :: m' :: secondHand0 :: rest)
      = (faceNode :: (List.range d).map (markerNode d)) ++ h' :: m' :: g secondHand0 :: rest := by
  rw [List.append_cons _ h' (m' :: secondHand0 :: rest),
    List.append_cons _ m' (secondHand0 :: rest),
    updL_skip_then_match _ g _
      (pre_append_leaf _ _
        (pre_append_leaf _ _ (clock_pre1 _ (by decide) (by decide) d) h' hh1 hh2)
        m' hm1 hm2)
      secondHand0 (by decide) rest]
  rw [← List.append_cons, ← List.append_cons]

theorem qselL_clock_minute (d : ℕ) (h' : SNode)
    (hh1 : classMatch "visual__hand--minute" h' = false) (hh2 : h'.kids = [])
    (x : SNode) (hx : classMatch "visual__hand--minute" x = true) (rest : List SNode) :
    qselL "visual__hand--minute"
        ((faceNode :: (List.range d).map (markerNode d)) ++ h' :: x :: rest) = some x := by
  rw [List.append_cons _ h' (x :: rest)]
  exact qselL_skip_then_match _ _
    (pre_append_leaf _ _ (clock_pre1 _ (by decide) (by decide) d) h' hh1 hh2) x hx rest

theorem qselL_clock_second (d : ℕ) (h' m' : SNode)
    (hh1 : classMatch "visual__hand--second" h' = false) (hh2 : h'.kids = [])
    (hm1 : classMatch "visual__hand--second" m' = false) (hm2 : m'.kids = [])
    (x : SNode) (hx : classMatch "visual__hand--second" x = true) (rest : List SNode) :
    qselL "visual__hand--second"
        ((faceNode :: (List.range d).map (markerNode d)) ++ h' :: m' :: x :: rest) = some x := by
  rw [List.append_cons _ h' (m' :: x :: rest), List.append_cons _ m' (x :: rest)]
  exact qselL_skip_then_match _ _
    (pre_append_leaf _ _
      (pre_append_leaf _ _ (clock_pre1 _ (by decide) (by decide) d) h' hh1 hh2)
      m' hm1 hm2) x hx rest

theorem qselL_clock_second_none (d : ℕ) (h' m' : SNode)
    (hh1 : classMatch "visual__hand--second" h' = false) (hh2 : h'.kids = [])
    (hm1 : classMatch "visual__hand--second" m' = false) (hm2 : m'.kids = []) :
    qselL "visual__hand--second"
        ((faceNode :: (List.range d).map (markerNode d)) ++ h' :: m' :: [centerDot]) = none := by
  apply qselL_leaf_none
  intro n hn
  rcases List.mem_append.1 hn with hn | hn
  · exact clock_pre1 _ (by decide) (by decide) d n hn
  · rcases List.mem_cons.1 hn with hn | hn
    · subst hn; exact ⟨hh1, hh2⟩
    · rcases List.mem_cons.1 hn with hn | hn
      · subst hn; exact ⟨hm1, hm2⟩
      · simp only [List.mem_singleton] at hn
        subst hn
        exact ⟨by decide, rfl⟩

theorem clockScaffold_kids (d : ℕ) (S : List SNode) :
    [faceNode] ++ (List.range d).map (markerNode d) ++ [hourHand0, minuteHand0] ++ S
        ++ [centerDot]
      = (faceNode :: (List.range d).map (markerNode d))
        ++ hourHand0 :: minuteHand0 :: (S ++ [centerDot]) := by
  simp

theorem renderClock_fresh (v : ClockVisual) (t : Inst) (c : List SNode)
    (hc : qselL "visual__svg" c = none) :
    renderClock v t c = c ++
      [SNode.mk "svg"
        [("class", AVal.s "visual__svg visual__svg--clock"),
         ("viewBox", AVal.s "0 0 120 120"), ("aria-hidden", AVal.s "true")]
        ((faceNode :: (List.range v.divisions).map (markerNode v.divisions))
          ++ setHandEnd hourLength ((v.getHands t).hour / (v.divisions : ℚ) * 360 - 90)
              hourHand0
            :: setHandEnd minuteLength ((v.getHands t).minute / 100 * 360 - 90) minuteHand0
            :: ((match (v.getHands t).second with
                 | some sec => [setHandEnd secondLength (sec / 100 * 360 - 90) secondHand0]
                 | none => []) ++ [centerDot]))] := by
  have hh' : classMatch "visual__hand--minute"
      (setHandEnd hourLength ((v.getHands t).hour / (v.divisions : ℚ) * 360 - 90) hourHand0)
        = false := by
    rw [classMatch_setHandEnd]
    decide
  have hh'k : (setHandEnd hourLength ((v.getHands t).hour / (v.divisions : ℚ) * 360 - 90)
      hourHand0).kids = [] := by
    rw [kids_setHandEnd]
    rfl
  have hh's : classMatch "visual__hand--second"
      (setHandEnd hourLength ((v.getHands t).hour / (v.divisions : ℚ) * 360 - 90) hourHand0)
        = false := by
    rw [classMatch_setHandEnd]
    decide
  have hm's : classMatch "visual__hand--second"
      (setHandEnd minuteLength ((v.getHands t).minute / 100 * 360 - 90) minuteHand0)
        = false := by
    rw [classMatch_setHandEnd]
    decide
  have hm'k : (setHandEnd minuteLength ((v.getHands t).minute / 100 * 360 - 90)
      minuteHand0).kids = [] := by
    rw [kids_setHandEnd]
    rfl
  cases hsec : (v.getHands t).second with
  | none =>
    have hscm : classMatch "visual__svg" (clockScaffold v.divisions false) = true := rfl
    have hsk : clockScaffold v.divisions false
        = SNode.mk "svg"
          [("class", AVal.s "visual__svg visual__svg--clock"),
           ("viewBox", AVal.s "0 0 120 120"), ("aria-hidden", AVal.s "true")]
          ((faceNode :: (List.range v.divisions).map (markerNode v.divisions))
            ++ hourHand0 :: minuteHand0 :: ([] ++ [centerDot])) := by
      simp only [clockScaffold, Bool.false_eq_true, if_false]
      rw [clockScaffold_kids v.divisions []]
    simp only [renderClock, hc, hsec, Option.isSome_none]
    rw [updL_append_none _ _ c _ hc, updL_singleton_match _ _ _ hscm]
    have hX1cm : classMatch "visual__svg"
        (updIn "visual__hand--hour"
          (setHandEnd hourLength ((v.getHands t).hour / (v.divisions : ℚ) * 360 - 90))
          (clockScaffold v.divisions false)) = true := by
      rw [classMatch_updIn]
      exact hscm
    rw [updL_append_none _ _ c _ hc, updL_singleton_match _ _ _ hX1cm]
    congr 1
    rw [hsk]
    simp only [updIn]
    rw [updL_clock_hour, updL_clock_minute _ _ hh' hh'k]
  | some sec =>
    have hscm : classMatch "visual__svg" (clockScaffold v.divisions true) = true := rfl
    have hsk : clockScaffold v.divisions true
        = SNode.mk "svg"
          [("class", AVal.s "visual__svg visual__svg--clock"),
           ("viewBox", AVal.s "0 0 120 120"), ("aria-hidden", AVal.s "true")]
          ((faceNode :: (List.range v.divisions).map (markerNode v.divisions))
            ++ hourHand0 :: minuteHand0 :: (secondHand0 :: [centerDot])) := by
      simp only [clockScaffold, eq_self_iff_true, if_true]
      have h0 : [secondHand0] ++ [centerDot] = secondHand0 :: [centerDot] := rfl
      rw [clockScaffold_kids v.divisions [secondHand0], h0]
    simp only [renderClock, hc, hsec, Option.isSome_some]
    rw [updL_append_none _ _ c _ hc, updL_singleton_match _ _ _ hscm]
    have hX1cm : classMatch "visual__svg"
        (updIn "visual__hand--hour"
          (setHandEnd hourLength ((v.getHands t).hour / (v.divisions : ℚ) * 360 - 90))
          (clockScaffold v.divisions true)) = true := by
      rw [classMatch_updIn]
      exact hscm
    rw [updL_append_none _ _ c _ hc, updL_singleton_match _ _ _ hX1cm]
    have hX2cm : classMatch "visual__svg"
        (updIn "visual__hand--minute"
          (setHandEnd minuteLength ((v.getHands t).minute / 100 * 360 - 90))
          (updIn "visual__hand--hour"
            (setHandEnd hourLength ((v.getHands t).hour / (v.divisions : ℚ) * 360 - 90))
            (clockScaffold v.divisions true))) = true := by
      rw [classMatch_updIn, classMatch_updIn]
      exact hscm
    rw [updL_append_none _ _ c _ hc, updL_singleton_match _ _ _ hX2cm]
    congr 1
    rw [hsk]
    simp only [updIn]
    rw [updL_clock_hour, updL_clock_minute _ _ hh' hh'k,
      updL_clock_second _ _ _ hh's hh'k hm's hm'k]
    simp

theorem qselL_clockSvg (cs : List SNode) :
    qselL "visual__svg"
      [SNode.mk "svg"
        [("class", AVal.s "visual__svg visual__svg--clock"),
         ("viewBox", AVal.s "0 0 120 120"), ("aria-hidden", AVal.s "true")] cs]
    = some (SNode.mk "svg"
        [("class", AVal.s "visual__svg visual__svg--clock"),
         ("viewBox", AVal.s "0 0 120 120"), ("aria-hidden", AVal.s "true")] cs) :=
  qselL_singleton_match _ _ rfl

/-- C7: for a `Clock` visual with `divisions > 0`, `renderVisual` places the
hour hand at `(hands.hour / divisions) × 360 − 90` degrees, the minute hand at
`(hands.minute / 100) × 360 − 90` degrees, and — when `hands.second` is
defined — the second hand at `(hands.second / 100) × 360 − 90` degrees. -/
theorem C7_clock_hand_angles (v : ClockVisual) (t : Inst) (hd : 0 < v.divisions)
    (c : List SNode) (hc : qselL "visual__svg" c = none) :
    handAngle "visual__hand--hour" (renderVisual (.clock v) t c)
      = some ((v.getHands t).hour / (v.divisions : ℚ) * 360 - 90)
  ∧ handAngle "visual__hand--minute" (renderVisual (.clock v) t c)
      = some ((v.getHands t).minute / 100 * 360 - 90)
  ∧ ∀ s : ℚ, (v.getHands t).second = some s →
      handAngle "visual__hand--second" (renderVisual (.clock v) t c)
        = some (s / 100 * 360 - 90) := by
  have hfresh := renderClock_fresh v t c hc
  have hh'm : classMatch "visual__hand--minute"
      (setHandEnd hourLength ((v.getHands t).hour / (v.divisions : ℚ) * 360 - 90) hourHand0)
        = false := by
    rw [classMatch_setHandEnd]; decide
  have hh'k : (setHandEnd hourLength ((v.getHands t).hour / (v.divisions : ℚ) * 360 - 90)
      hourHand0).kids = [] := by
    rw [kids_setHandEnd]; rfl
  have hh's : classMatch "visual__hand--second"
      (setHandEnd hourLength ((v.getHands t).hour / (v.divisions : ℚ) * 360 - 90) hourHand0)
        = false := by
    rw [classMatch_setHandEnd]; decide
  have hm's : classMatch "visual__hand--second"
      (setHandEnd minuteLength ((v.getHands t).minute / 100 * 360 - 90) minuteHand0)
        = false := by
    rw [classMatch_setHandEnd]; decide
  have hm'k : (setHandEnd minuteLength ((v.getHands t).minute / 100 * 360 - 90)
      minuteHand0).kids = [] := by
    rw [kids_setHandEnd]; rfl
  have hhcm : classMatch "visual__hand--hour"
      (setHandEnd hourLength ((v.getHands t).hour / (v.divisions : ℚ) * 360 - 90) hourHand0)
        = true := by
    rw [classMatch_setHandEnd]; decide
  have hmcm : classMatch "visual__hand--minute"
      (setHandEnd minuteLength ((v.getHands t).minute / 100 * 360 - 90) minuteHand0)
        = true := by
    rw [classMatch_setHandEnd]; decide
  refine ⟨?_, ?_, ?_⟩
  · show handAngle "visual__hand--hour" (renderClock v t c) = _
    rw [hfresh]
    unfold handAngle
    rw [qselL_append, hc, qselL_clockSvg]
    simp only [Option.some_bind, SNode.kids]
    rw [qselL_clock_hour _ _ hhcm]
    simp only [Option.some_bind]
    rfl
  · show handAngle "visual__hand--minute" (renderClock v t c) = _
    rw [hfresh]
    unfold handAngle
    rw [qselL_append, hc, qselL_clockSvg]
    simp only [Option.some_bind, SNode.kids]
    rw [qselL_clock_minute _ _ hh'm hh'k _ hmcm]
    simp only [Option.some_bind]
    rfl
  · intro s hs
    show handAngle "visual__hand--second" (renderClock v t c) = _
    simp only [hs] at hfresh
    rw [hfresh]
    unfold handAngle
    rw [qselL_append, hc, qselL_clockSvg]
    simp only [Option.some_bind, SNode.kids]
    have hscm : classMatch "visual__hand--second"
        (setHandEnd secondLength (s / 100 * 360 - 90) secondHand0) = true := by
      rw [classMatch_setHandEnd]; decide
    have hform : (faceNode :: (List.range v.divisions).map (markerNode v.divisions))
        ++ setHandEnd hourLength ((v.getHands t).hour / (v.divisions : ℚ) * 360 - 90)
            hourHand0
          :: setHandEnd minuteLength ((v.getHands t).minute / 100 * 360 - 90) minuteHand0
          :: ([setHandEnd secondLength (s / 100 * 360 - 90) secondHand0] ++ [centerDot])
        = (faceNode :: (List.range v.divisions).map (markerNode v.divisions))
        ++ setHandEnd hourLength ((v.getHands t).hour / (v.divisions : ℚ) * 360 - 90)
            hourHand0
          :: setHandEnd minuteLength ((v.getHands t).minute / 100 * 360 - 90) minuteHand0
          :: setHandEnd secondLength (s / 100 * 360 - 90) secondHand0 :: [centerDot] := by
      simp
    rw [hform, qselL_clock_second _ _ _ hh's hh'k hm's hm'k _ hscm]
    simp only [Option.some_bind]
    rfl

/-- C7 witness: `divisions = 12`, hands `{hour := 3, minute := 0}` put the hour
hand at `−90 + 360/4` degrees — exactly one quarter turn past the 12-o'clock
reference angle of −90 degrees. -/
theorem C7_witness :
    handAngle "visual__hand--hour" (renderVisual (.clock demoClock) 0 [])
      = some (-90 + 360 / 4) := by
  have h := (C7_clock_hand_angles demoClock 0 (by norm_num [demoClock]) [] rfl).1
  rw [h]
  simp only [demoClock]
  norm_num

theorem updL_clock_hour_gen (d : ℕ) (g : SNode → SNode) (x : SNode)
    (hx : classMatch "visual__hand--hour" x = true) (rest : List SNode) :
    updL "visual__hand--hour" g
        ((faceNode :: (List.range d).map (markerNode d)) ++ x :: rest)
      = (faceNode :: (List.range d).map (markerNode d)) ++ g x :: rest :=
  updL_skip_then_match _ g _ (clock_pre1 _ (by decide) (by decide) d) x hx rest

theorem updL_clock_minute_gen (d : ℕ) (h' : SNode)
    (hh1 : classMatch "visual__hand--minute" h' = false) (hh2 : h'.kids = [])
    (g : SNode → SNode) (x : SNode) (hx : classMatch "visual__hand--minute" x = true)
    (rest : List SNode) :
    updL "visual__hand--minute" g
        ((faceNode :: (List.range d).map (markerNode d)) ++ h' :: x :: rest)
      = (faceNode :: (List.range d).map (markerNode d)) ++ h' :: g x :: rest := by
  rw [List.append_cons _ h' (x :: rest),
    updL_skip_then_match _ g _
      (pre_append_leaf _ _ (clock_pre1 _ (by decide) (by decide) d) h' hh1 hh2) x hx rest]
  rw [← List.append_cons]

theorem updL_clock_ss_none (d : ℕ) (h' m' : SNode)
    (hh1 : classMatch "visual__hand--second" h' = false) (hh2 : h'.kids = [])
    (hm1 : classMatch "visual__hand--second" m' = false) (hm2 : m'.kids = [])
    (g : SNode → SNode) :
    updL "visual__hand--second" g
        ((faceNode :: (List.range d).map (markerNode d)) ++ h' :: m' :: [centerDot])
      = (faceNode :: (List.range d).map (markerNode d)) ++ h' :: m' :: [centerDot] :=
  updL_of_qselL_none _ g _ (qselL_clock_second_none d h' m' hh1 hh2 hm1 hm2)

/-- C10: whether a clock has a second hand is fixed by the first render on a
target: the scaffold gets a second-hand node exactly when `getHands` returned
a defined `second` on that first call; and if the first call had no `second`,
a later call whose hands do include a defined `second` silently skips the
second-hand update — no node is added (the skeleton is unchanged and the
second-hand lookup still misses), and no error is raised. -/
theorem C10_second_hand_fixed (v : ClockVisual) (t₁ t₂ : Inst) :
    ((qselIn "visual__hand--second" (renderClock v t₁ [])).isSome
        = (v.getHands t₁).second.isSome)
  ∧ ((v.getHands t₁).second = none →
      ∀ s : ℚ, (v.getHands t₂).second = some s →
        qselIn "visual__hand--second" (renderClock v t₂ (renderClock v t₁ [])) = none
      ∧ skelL (renderClock v t₂ (renderClock v t₁ []))
          = skelL (renderClock v t₁ [])) := by
  have hfresh := renderClock_fresh v t₁ [] rfl
  have hh's : classMatch "visual__hand--second"
      (setHandEnd hourLength ((v.getHands t₁).hour / (v.divisions : ℚ) * 360 - 90) hourHand0)
        = false := by
    rw [classMatch_setHandEnd]; decide
  have hh'k : (setHandEnd hourLength ((v.getHands t₁).hour / (v.divisions : ℚ) * 360 - 90)
      hourHand0).kids = [] := by
    rw [kids_setHandEnd]; rfl
  have hm's : classMatch "visual__hand--second"
      (setHandEnd minuteLength ((v.getHands t₁).minute / 100 * 360 - 90) minuteHand0)
        = false := by
    rw [classMatch_setHandEnd]; decide
  have hm'k : (setHandEnd minuteLength ((v.getHands t₁).minute / 100 * 360 - 90)
      minuteHand0).kids = [] := by
    rw [kids_setHandEnd]; rfl
  constructor
  · cases hsec : (v.getHands t₁).second with
    | none =>
      simp only [hsec, List.nil_append] at hfresh
      unfold qselIn
      rw [hfresh, qselL_clockSvg]
      simp only [Option.some_bind, SNode.kids, Option.isSome_none, List.nil_append]
      rw [qselL_clock_second_none _ _ _ hh's hh'k hm's hm'k]
      rfl
    | some s =>
      simp only [hsec, List.nil_append, List.singleton_append] at hfresh
      have hscm : classMatch "visual__hand--second"
          (setHandEnd secondLength (s / 100 * 360 - 90) secondHand0) = true := by
        rw [classMatch_setHandEnd]; decide
      unfold qselIn
      rw [hfresh, qselL_clockSvg]
      simp only [Option.some_bind, SNode.kids, Option.isSome_some]
      rw [qselL_clock_second _ _ _ hh's hh'k hm's hm'k _ hscm]
      rfl
  · intro h1 s hs2
    simp only [h1, List.nil_append] at hfresh
    have hq1 : qselL "visual__svg" (renderClock v t₁ []) =
        some (SNode.mk "svg"
          [("class", AVal.s "visual__svg visual__svg--clock"),
           ("viewBox", AVal.s "0 0 120 120"), ("aria-hidden", AVal.s "true")]
          ((faceNode :: (List.range v.divisions).map (markerNode v.divisions))
            ++ setHandEnd hourLength ((v.getHands t₁).hour / (v.divisions : ℚ) * 360 - 90)
                hourHand0
              :: setHandEnd minuteLength ((v.getHands t₁).minute / 100 * 360 - 90)
                  minuteHand0
              :: [centerDot])) := by
      rw [hfresh]
      exact qselL_clockSvg _
    have hcmX : ∀ cs : List SNode, classMatch "visual__svg"
        (SNode.mk "svg"
          [("class", AVal.s "visual__svg visual__svg--clock"),
           ("viewBox", AVal.s "0 0 120 120"), ("aria-hidden", AVal.s "true")] cs) = true :=
      fun cs => rfl
    -- second render: scaffold exists, so only updates run
    have hrender2 : renderClock v t₂ (renderClock v t₁ []) =
        [updIn "visual__hand--second"
          (setHandEnd secondLength (s / 100 * 360 - 90))
          (updIn "visual__hand--minute"
            (setHandEnd minuteLength ((v.getHands t₂).minute / 100 * 360 - 90))
            (updIn "visual__hand--hour"
              (setHandEnd hourLength ((v.getHands t₂).hour / (v.divisions : ℚ) * 360 - 90))
              (SNode.mk "svg"
                [("class", AVal.s "visual__svg visual__svg--clock"),
                 ("viewBox", AVal.s "0 0 120 120"), ("aria-hidden", AVal.s "true")]
                ((faceNode :: (List.range v.divisions).map (markerNode v.divisions))
                  ++ setHandEnd hourLength
                      ((v.getHands t₁).hour / (v.divisions : ℚ) * 360 - 90) hourHand0
                    :: setHandEnd minuteLength
                        ((v.getHands t₁).minute / 100 * 360 - 90) minuteHand0
                    :: [centerDot]))))] := by
      rw [hfresh]
      simp only [renderClock, hs2, qselL_clockSvg]
      rw [updL_singleton_match _ _ _ (hcmX _)]
      rw [updL_singleton_match _ _ _ (by rw [classMatch_updIn]; exact hcmX _)]
      rw [updL_singleton_match _ _ _
        (by rw [classMatch_updIn, classMatch_updIn]; exact hcmX _)]
    have hskel : skel1 (updIn "visual__hand--second"
          (setHandEnd secondLength (s / 100 * 360 - 90))
          (updIn "visual__hand--minute"
            (setHandEnd minuteLength ((v.getHands t₂).minute / 100 * 360 - 90))
            (updIn "visual__hand--hour"
              (setHandEnd hourLength ((v.getHands t₂).hour / (v.divisions : ℚ) * 360 - 90))
              (SNode.mk "svg"
                [("class", AVal.s "visual__svg visual__svg--clock"),
                 ("viewBox", AVal.s "0 0 120 120"), ("aria-hidden", AVal.s "true")]
                ((faceNode :: (List.range v.divisions).map (markerNode v.divisions))
                  ++ setHandEnd hourLength
                      ((v.getHands t₁).hour / (v.divisions : ℚ) * 360 - 90) hourHand0
                    :: setHandEnd minuteLength
                        ((v.getHands t₁).minute / 100 * 360 - 90) minuteHand0
                    :: [centerDot])))))
        = skel1 (SNode.mk "svg"
            [("class", AVal.s "visual__svg visual__svg--clock"),
             ("viewBox", AVal.s "0 0 120 120"), ("aria-hidden", AVal.s "true")]
            ((faceNode :: (List.range v.divisions).map (markerNode v.divisions))
              ++ setHandEnd hourLength
                  ((v.getHands t₁).hour / (v.divisions : ℚ) * 360 - 90) hourHand0
                :: setHandEnd minuteLength
                    ((v.getHands t₁).minute / 100 * 360 - 90) minuteHand0
                :: [centerDot])) := by
      rw [skelPres_updIn _ _ (skelPres_setHandEnd _ _) _,
        skelPres_updIn _ _ (skelPres_setHandEnd _ _) _,
        skelPres_updIn _ _ (skelPres_setHandEnd _ _) _]
    constructor
    · -- no second-hand node can be found after the second render
      have hh2cm : classMatch "visual__hand--hour"
          (setHandEnd hourLength ((v.getHands t₁).hour / (v.divisions : ℚ) * 360 - 90)
            hourHand0) = true := by
        rw [classMatch_setHandEnd]; decide
      have hm1cmm : classMatch "visual__hand--minute"
          (setHandEnd hourLength ((v.getHands t₂).hour / (v.divisions : ℚ) * 360 - 90)
            (setHandEnd hourLength ((v.getHands t₁).hour / (v.divisions : ℚ) * 360 - 90)
              hourHand0)) = false := by
        rw [classMatch_setHandEnd, classMatch_setHandEnd]; decide
      have hm1k : (setHandEnd hourLength ((v.getHands t₂).hour / (v.divisions : ℚ) * 360 - 90)
          (setHandEnd hourLength ((v.getHands t₁).hour / (v.divisions : ℚ) * 360 - 90)
            hourHand0)).kids = [] := by
        rw [kids_setHandEnd, kids_setHandEnd]; rfl
      have hmm1cm : classMatch "visual__hand--minute"
          (setHandEnd minuteLength ((v.getHands t₁).minute / 100 * 360 - 90) minuteHand0)
            = true := by
        rw [classMatch_setHandEnd]; decide
      have hh2s : classMatch "visual__hand--second"
          (setHandEnd hourLength ((v.getHands t₂).hour / (v.divisions : ℚ) * 360 - 90)
            (setHandEnd hourLength ((v.getHands t₁).hour / (v.divisions : ℚ) * 360 - 90)
              hourHand0)) = false := by
        rw [classMatch_setHandEnd, classMatch_setHandEnd]; decide
      have hm2s : classMatch "visual__hand--second"
          (setHandEnd minuteLength ((v.getHands t₂).minute / 100 * 360 - 90)
            (setHandEnd minuteLength ((v.getHands t₁).minute / 100 * 360 - 90) minuteHand0))
            = false := by
        rw [classMatch_setHandEnd, classMatch_setHandEnd]; decide
      have hm2k : (setHandEnd minuteLength ((v.getHands t₂).minute / 100 * 360 - 90)
          (setHandEnd minuteLength ((v.getHands t₁).minute / 100 * 360 - 90)
            minuteHand0)).kids = [] := by
        rw [kids_setHandEnd, kids_setHandEnd]; rfl
      unfold qselIn
      rw [hrender2]
      have hkids : (updIn "visual__hand--second"
          (setHandEnd secondLength (s / 100 * 360 - 90))
          (updIn "visual__hand--minute"
            (setHandEnd minuteLength ((v.getHands t₂).minute / 100 * 360 - 90))
            (updIn "visual__hand--hour"
              (setHandEnd hourLength ((v.getHands t₂).hour / (v.divisions : ℚ) * 360 - 90))
              (SNode.mk "svg"
                [("class", AVal.s "visual__svg visual__svg--clock"),
                 ("viewBox", AVal.s "0 0 120 120"), ("aria-hidden", AVal.s "true")]
                ((faceNode :: (List.range v.divisions).map (markerNode v.divisions))
                  ++ setHandEnd hourLength
                      ((v.getHands t₁).hour / (v.divisions : ℚ) * 360 - 90) hourHand0
                    :: setHandEnd minuteLength
                        ((v.getHands t₁).minute / 100 * 360 - 90) minuteHand0
                    :: [centerDot]))))).kids
          = (faceNode :: (List.range v.divisions).map (markerNode v.divisions))
            ++ setHandEnd hourLength ((v.getHands t₂).hour / (v.divisions : ℚ) * 360 - 90)
                (setHandEnd hourLength ((v.getHands t₁).hour / (v.divisions : ℚ) * 360 - 90)
                  hourHand0)
              :: setHandEnd minuteLength ((v.getHands t₂).minute / 100 * 360 - 90)
                  (setHandEnd minuteLength ((v.getHands t₁).minute / 100 * 360 - 90)
                    minuteHand0)
              :: [centerDot] := by
        simp only [updIn, SNode.kids]
        rw [updL_clock_hour_gen _ _ _ hh2cm]
        rw [updL_clock_minute_gen _ _ hm1cmm hm1k _ _ hmm1cm]
        rw [updL_clock_ss_none _ _ _ hh2s hm1k hm2s hm2k]
      rw [show qselL "visual__svg" [updIn "visual__hand--second"
          (setHandEnd secondLength (s / 100 * 360 - 90))
          (updIn "visual__hand--minute"
            (setHandEnd minuteLength ((v.getHands t₂).minute / 100 * 360 - 90))
            (updIn "visual__hand--hour"
              (setHandEnd hourLength ((v.getHands t₂).hour / (v.divisions : ℚ) * 360 - 90))
              (SNode.mk "svg"
                [("class", AVal.s "visual__svg visual__svg--clock"),
                 ("viewBox", AVal.s "0 0 120 120"), ("aria-hidden", AVal.s "true")]
                ((faceNode :: (List.range v.divisions).map (markerNode v.divisions))
                  ++ setHandEnd hourLength
                      ((v.getHands t₁).hour / (v.divisions : ℚ) * 360 - 90) hourHand0
                    :: setHandEnd minuteLength
                        ((v.getHands t₁).minute / 100 * 360 - 90) minuteHand0
                    :: [centerDot]))))]
          = some (updIn "visual__hand--second"
          (setHandEnd secondLength (s / 100 * 360 - 90))
          (updIn "visual__hand--minute"
            (setHandEnd minuteLength ((v.getHands t₂).minute / 100 * 360 - 90))
            (updIn "visual__hand--hour"
              (setHandEnd hourLength ((v.getHands t₂).hour / (v.divisions : ℚ) * 360 - 90))
              (SNode.mk "svg"
                [("class", AVal.s "visual__svg visual__svg--clock"),
                 ("viewBox", AVal.s "0 0 120 120"), ("aria-hidden", AVal.s "true")]
                ((faceNode :: (List.range v.divisions).map (markerNode v.divisions))
                  ++ setHandEnd hourLength
                      ((v.getHands t₁).hour / (v.divisions : ℚ) * 360 - 90) hourHand0
                    :: setHandEnd minuteLength
                        ((v.getHands t₁).minute / 100 * 360 - 90) minuteHand0
                    :: [centerDot])))))
        from qselL_singleton_match _ _ (by
          rw [classMatch_updIn, classMatch_updIn, classMatch_updIn]
          exact hcmX _)]
      simp only [Option.some_bind]
      rw [hkids]
      exact qselL_clock_second_none _ _ _ hh2s hm1k hm2s hm2k
    · rw [hrender2, hfresh]
      show skel1 _ :: skelL [] = skel1 _ :: skelL []
      rw [hskel]

/-- C10 witness: `demoClockLate` reports no second at instant 0 and a second
at instant 1; the first render builds no second hand, and the later render
adds none and leaves the skeleton unchanged. -/
theorem C10_witness :
    (qselIn "visual__hand--second" (renderClock demoClockLate 0 [])).isSome = false
  ∧ qselIn "visual__hand--second"
      (renderClock demoClockLate 1 (renderClock demoClockLate 0 [])) = none
  ∧ skelL (renderClock demoClockLate 1 (renderClock demoClockLate 0 []))
      = skelL (renderClock demoClockLate 0 []) := by
  have h := C10_second_hand_fixed demoClockLate 0 1
  have h2 := h.2 rfl 30 rfl
  exact ⟨h.1, h2.1, h2.2⟩

theorem classMatch_ringSvg : classMatch "visual__svg" ringSvg = true := rfl

theorem renderRing_fresh (v : ProgressRingVisual) (t : Inst) (c : List SNode)
    (hc : qselL "visual__svg" c = none) :
    renderProgressRing v t c = c ++
      [updIn "visual__fill"
        (fun arc => arc.setAttr "stroke-dashoffset"
          (.tau (ringRadius * (1 - min (v.getValue t / v.max) 1)))) ringSvg] := by
  simp only [renderProgressRing, hc]
  rw [updL_append_none _ _ c _ hc, updL_singleton_match _ _ _ classMatch_ringSvg]

theorem renderVisual_step (v : VisualDefinition) (t : Inst) (c : List SNode)
    (h : (qselL "visual__svg" c).isSome = true) :
    skelL (renderVisual v t c) = skelL c
  ∧ (qselL "visual__svg" (renderVisual v t c)).isSome = true := by
  obtain ⟨m, hm⟩ := Option.isSome_iff_exists.1 h
  cases v with
  | bar vb =>
    have hpres : skelPres (updIn "visual__fill"
        (fun fill => fill.setAttr "width"
          (.n (min (vb.getValue t / vb.max) 1 * VISUAL_SIZE)))) :=
      skelPres_updIn _ _ (fun n => skel1_setAttr n "width" _ (by decide))
    have hcm : ∀ n : SNode, classMatch "visual__svg" (updIn "visual__fill"
        (fun fill => fill.setAttr "width"
          (.n (min (vb.getValue t / vb.max) 1 * VISUAL_SIZE))) n)
        = classMatch "visual__svg" n := fun n => classMatch_updIn _ _ _ n
    show skelL (renderProgressBar vb t c) = skelL c
      ∧ (qselL "visual__svg" (renderProgressBar vb t c)).isSome = true
    simp only [renderProgressBar, hm]
    exact ⟨updL_skel _ _ hpres c, by rw [qselL_updL_isSome _ _ hcm c]; exact h⟩
  | ring vr =>
    have hpres : skelPres (updIn "visual__fill"
        (fun arc => arc.setAttr "stroke-dashoffset"
          (.tau (ringRadius * (1 - min (vr.getValue t / vr.max) 1))))) :=
      skelPres_updIn _ _ (fun n => skel1_setAttr n "stroke-dashoffset" _ (by decide))
    have hcm : ∀ n : SNode, classMatch "visual__svg" (updIn "visual__fill"
        (fun arc => arc.setAttr "stroke-dashoffset"
          (.tau (ringRadius * (1 - min (vr.getValue t / vr.max) 1)))) n)
        = classMatch "visual__svg" n := fun n => classMatch_updIn _ _ _ n
    show skelL (renderProgressRing vr t c) = skelL c
      ∧ (qselL "visual__svg" (renderProgressRing vr t c)).isSome = true
    simp only [renderProgressRing, hm]
    exact ⟨updL_skel _ _ hpres c, by rw [qselL_updL_isSome _ _ hcm c]; exact h⟩
  | clock vc =>
    show skelL (renderClock vc t c) = skelL c
      ∧ (qselL "visual__svg" (renderClock vc t c)).isSome = true
    simp only [renderClock, hm]
    cases hsec : (vc.getHands t).second with
    | none =>
      have h1 := updL_skel "visual__svg"
        (updIn "visual__hand--hour"
          (setHandEnd hourLength ((vc.getHands t).hour / (vc.divisions : ℚ) * 360 - 90)))
        (skelPres_updIn _ _ (skelPres_setHandEnd _ _)) c
      have h2 := updL_skel "visual__svg"
        (updIn "visual__hand--minute"
          (setHandEnd minuteLength ((vc.getHands t).minute / 100 * 360 - 90)))
        (skelPres_updIn _ _ (skelPres_setHandEnd _ _))
        (updL "visual__svg"
          (updIn "visual__hand--hour"
            (setHandEnd hourLength ((vc.getHands t).hour / (vc.divisions : ℚ) * 360 - 90))) c)
      have hq1 := qselL_updL_isSome "visual__svg"
        (updIn "visual__hand--hour"
          (setHandEnd hourLength ((vc.getHands t).hour / (vc.divisions : ℚ) * 360 - 90)))
        (fun n => classMatch_updIn _ _ _ n) c
      have hq2 := qselL_updL_isSome "visual__svg"
        (updIn "visual__hand--minute"
          (setHandEnd minuteLength ((vc.getHands t).minute / 100 * 360 - 90)))
        (fun n => classMatch_updIn _ _ _ n)
        (updL "visual__svg"
          (updIn "visual__hand--hour"
            (setHandEnd hourLength ((vc.getHands t).hour / (vc.divisions : ℚ) * 360 - 90))) c)
      exact ⟨h2.trans h1, by rw [hq2, hq1]; exact h⟩
    | some s =>
      have h1 := updL_skel "visual__svg"
        (updIn "visual__hand--hour"
          (setHandEnd hourLength ((vc.getHands t).hour / (vc.divisions : ℚ) * 360 - 90)))
        (skelPres_updIn _ _ (skelPres_setHandEnd _ _)) c
      have h2 := updL_skel "visual__svg"
        (updIn "visual__hand--minute"
          (setHandEnd minuteLength ((vc.getHands t).minute / 100 * 360 - 90)))
        (skelPres_updIn _ _ (skelPres_setHandEnd _ _))
        (updL "visual__svg"
          (updIn "visual__hand--hour"
            (setHandEnd hourLength ((vc.getHands t).hour / (vc.divisions : ℚ) * 360 - 90))) c)
      have h3 := updL_skel "visual__svg"
        (updIn "visual__hand--second"
          (setHandEnd secondLength (s / 100 * 360 - 90)))
        (skelPres_updIn _ _ (skelPres_setHandEnd _ _))
        (updL "visual__svg"
          (updIn "visual__hand--minute"
            (setHandEnd minuteLength ((vc.getHands t).minute / 100 * 360 - 90)))
          (updL "visual__svg"
            (updIn "visual__hand--hour"
              (setHandEnd hourLength
                ((vc.getHands t).hour / (vc.divisions : ℚ) * 360 - 90))) c))
      have hq1 := qselL_updL_isSome "visual__svg"
        (updIn "visual__hand--hour"
          (setHandEnd hourLength ((vc.getHands t).hour / (vc.divisions : ℚ) * 360 - 90)))
        (fun n => classMatch_updIn _ _ _ n) c
      have hq2 := qselL_updL_isSome "visual__svg"
        (updIn "visual__hand--minute"
          (setHandEnd minuteLength ((vc.getHands t).minute / 100 * 360 - 90)))
        (fun n => classMatch_updIn _ _ _ n)
        (updL "visual__svg"
          (updIn "visual__hand--hour"
            (setHandEnd hourLength ((vc.getHands t).hour / (vc.divisions : ℚ) * 360 - 90))) c)
      have hq3 := qselL_updL_isSome "visual__svg"
        (updIn "visual__hand--second"
          (setHandEnd secondLength (s / 100 * 360 - 90)))
        (fun n => classMatch_updIn _ _ _ n)
        (updL "visual__svg"
          (updIn "visual__hand--minute"
            (setHandEnd minuteLength ((vc.getHands t).minute / 100 * 360 - 90)))
          (updL "visual__svg"
            (updIn "visual__hand--hour"
              (setHandEnd hourLength
                ((vc.getHands t).hour / (vc.divisions : ℚ) * 360 - 90))) c))
      exact ⟨(h3.trans h2).trans h1, by rw [hq3, hq2, hq1]; exact h⟩

theorem renderVisual_fresh_isSome (v : VisualDefinition) (t : Inst) :
    (qselL "visual__svg" (renderVisual v t [])).isSome = true := by
  cases v with
  | bar vb =>
    show (qselL "visual__svg" (renderProgressBar vb t [])).isSome = true
    rw [renderBar_fresh vb t [] rfl]
    simp only [List.nil_append]
    rw [qselL_singleton_match _ _ (by rw [classMatch_updIn]; exact classMatch_barSvg)]
    rfl
  | ring vr =>
    show (qselL "visual__svg" (renderProgressRing vr t [])).isSome = true
    rw [renderRing_fresh vr t [] rfl]
    simp only [List.nil_append]
    rw [qselL_singleton_match _ _ (by rw [classMatch_updIn]; exact classMatch_ringSvg)]
    rfl
  | clock vc =>
    show (qselL "visual__svg" (renderClock vc t [])).isSome = true
    rw [renderClock_fresh vc t [] rfl]
    simp only [List.nil_append]
    rw [qselL_clockSvg]
    rfl

/-- C8: for every visual shape (progress bar, progress ring, clock), the first
`renderVisual` call on a fresh target constructs the static scaffold (the
`.visual__svg` element with its track/face/markers/hand lines), and every
subsequent call only rewrites dynamic attribute values: the skeleton (tags,
classes and tree structure) after any sequence of further calls is exactly the
skeleton after the first call, so no scaffold element is ever duplicated. -/
theorem C8_scaffold_lazy (v : VisualDefinition) (t₀ : Inst) (ts : List Inst) :
    (qselL "visual__svg" (renderVisual v t₀ [])).isSome = true
  ∧ skelL (ts.foldl (fun c t => renderVisual v t c) (renderVisual v t₀ []))
      = skelL (renderVisual v t₀ []) := by
  refine ⟨renderVisual_fresh_isSome v t₀, ?_⟩
  have key : ∀ (l : List Inst) (c : List SNode), (qselL "visual__svg" c).isSome = true →
      skelL (l.foldl (fun c t => renderVisual v t c) c) = skelL c
      ∧ (qselL "visual__svg" (l.foldl (fun c t => renderVisual v t c) c)).isSome = true := by
    intro l
    induction l with
    | nil => intro c h; exact ⟨rfl, h⟩
    | cons t rest ih =>
      intro c h
      have hstep := renderVisual_step v t c h
      have hrest := ih (renderVisual v t c) hstep.2
      simp only [List.foldl_cons]
      exact ⟨hrest.1.trans hstep.1, hrest.2⟩
  exact (key ts _ (renderVisual_fresh_isSome v t₀)).1
